import Mathlib

/-! Query translation of the basic relay (`basic/query.go`)

A shallow embedding of `BasicRelay.QueryEvents`: the translation of a
subscription filter into a list of SQL conditions and bound parameters, the
assembly of the query text, and the single call of the storage collaborator.

Conventions of the embedding

* A Go slice that may be `nil` is an `Option (List _)`: `none` is the nil
  slice, `some []` the non-nil empty slice.
* The tag mapping (a Go `map[string][]string`) is the list of its entries in
  the order in which the `range` loop of one call visits them.
* The storage collaborator is a pair of functions; the calls issued to it are
  recorded in the outcome of `QueryEvents`.
* Go strings are modelled by `String`; the hexadecimal decoder reads
  characters where Go reads bytes (a character outside ASCII is not a
  hexadecimal digit in either reading).
* The fields `Since` and `Until` of the filter are pointers (`*time.Time`):
  `none` is the nil pointer of a bound that was never set, and a method call
  through it is a run-time panic, recorded in the outcome of `QueryEvents`.
* A `time.Time` holds its seconds as an `int64`; sums of seconds wrap around
  as they do in Go.
-/

namespace Khatru

/-! ## Values of the host language and of the libraries -/

/-- Go `error` values that occur in `QueryEvents`. `ErrNoRows` is the sentinel
`sql.ErrNoRows`, `New text` is `errors.New(text)`, `Wrap text inner` is
`fmt.Errorf(text + "%w", inner)`, and `Other text` is any other error of the
storage driver. -/
inductive GoError where
  | ErrNoRows : GoError
  | New (text : String) : GoError
  | Wrap (text : String) (inner : GoError) : GoError
  | Other (text : String) : GoError
  deriving DecidableEq, Repr

/-- The method `Error()`: the message of an error. -/
def GoError.Error : GoError → String
  | .ErrNoRows => "sql: no rows in result set"
  | .New text => text
  | .Wrap text inner => text ++ inner.Error
  | .Other text => text

/-- The function `errors.Unwrap`: the error wrapped by `%w`, if any. -/
def GoError.Unwrap : GoError → Option GoError
  | .Wrap _ inner => some inner
  | _ => none

/-- The value of an `int64` computation: the result modulo 2^64, taken in the
range from -2^63 to 2^63 - 1. -/
def wrapInt64 (x : Int) : Int :=
  (x + 9223372036854775808) % 18446744073709551616 - 9223372036854775808

/-- The constant `unixToInternal` of package `time`: the seconds from
January 1, year 1 to January 1, 1970. -/
def unixToInternal : Int := 62135596800

/-- A Go `time.Time` without monotonic clock reading: `sec` is the value of
the method `sec()`, the seconds since January 1, year 1, 00:00:00 UTC, held in
an `int64`, and `nsec` the value of `nsec()`, the nanoseconds within that
second. -/
structure Time where
  sec : Int
  nsec : Nat
  deriving DecidableEq, Repr

/-- The method `Time.Before`: `ts < us || ts == us && t.nsec() < u.nsec()`. -/
def Time.Before (t u : Time) : Bool :=
  decide (t.sec < u.sec) || (decide (t.sec = u.sec) && decide (t.nsec < u.nsec))

/-- The method `Time.Unix`: `t.sec() + internalToUnix`, an `int64` sum. -/
def Time.Unix (t : Time) : Int := wrapInt64 (t.sec - unixToInternal)

/-- The function `time.Unix(sec, nsec)` for `0 <= nsec < 1e9`: the seconds are
stored as the `int64` sum `sec + unixToInternal`. -/
def time.Unix (sec : Int) (nsec : Nat) : Time := ⟨wrapInt64 (sec + unixToInternal), nsec⟩

/-- The zero value of `time.Time`: January 1, year 1, 00:00:00 UTC. -/
def Time.zero : Time := ⟨0, 0⟩

/-- The value `time.Date(2022, 1, 1, 0, 0, 0, 0, time.UTC)` of line 118:
Unix second 1640995200. -/
def aLongTimeAgo : Time := ⟨63776592000, 0⟩

/-- A bound parameter (`interface{}`): a tag value or a Unix timestamp. -/
inductive Param where
  | str (s : String) : Param
  | int (n : Int) : Param
  deriving DecidableEq, Repr

/-- A stored event (`nostr.Event`), as decoded from a row. -/
structure Event where
  ID : String
  PubKey : String
  CreatedAt : Int
  Kind : Int
  Tags : List (List String)
  Content : String
  Sig : String
  deriving DecidableEq, Repr

/-- The filter `nostr.Filter`, with the fields `QueryEvents` reads. `Since`
and `Until` are of type `*time.Time`; `none` is the nil pointer. -/
structure Filter where
  IDs : Option (List String)
  Authors : Option (List String)
  Kinds : Option (List Int)
  Tags : List (String × List String)
  Since : Option Time
  Until : Option Time
  deriving DecidableEq, Repr

/-- The storage collaborator (`*sqlx.DB`): `Rebind` rewrites the placeholders,
`Select` executes a query with its parameters and yields the rows written to
the destination slice together with the error it reports. -/
structure DB where
  Rebind : String → String
  Select : String → List Param → List Event × Option GoError

/-- The receiver of `QueryEvents`. -/
structure BasicRelay where
  DB : DB

/-! ## Library functions -/

/-- The value of a hexadecimal digit (`reverseHexTable` of `encoding/hex`). -/
def fromHexChar (c : Char) : Option Nat :=
  if 48 ≤ c.toNat ∧ c.toNat ≤ 57 then some (c.toNat - 48)
  else if 97 ≤ c.toNat ∧ c.toNat ≤ 102 then some (c.toNat - 87)
  else if 65 ≤ c.toNat ∧ c.toNat ≤ 70 then some (c.toNat - 55)
  else none

/-- The errors of `encoding/hex`. -/
inductive HexError where
  | InvalidByteError (c : Char) : HexError
  | ErrLength : HexError
  deriving DecidableEq, Repr

/-- The function `hex.Decode`: the bytes decoded so far and the error. -/
def Decode : List Char → List Nat × Option HexError
  | [] => ([], none)
  | [p] =>
    match fromHexChar p with
    | none => ([], some (.InvalidByteError p))
    | some _ => ([], some .ErrLength)
  | p :: q :: rest =>
    match fromHexChar p with
    | none => ([], some (.InvalidByteError p))
    | some a =>
      match fromHexChar q with
      | none => ([], some (.InvalidByteError q))
      | some b => ((a * 16 + b) :: (Decode rest).1, (Decode rest).2)

/-- The function `hex.DecodeString`. -/
def DecodeString (s : String) : List Nat × Option HexError := Decode s.data

/-- One lowercase hexadecimal digit. -/
def hexDigit (n : Nat) : Char :=
  if n < 10 then Char.ofNat (48 + n) else Char.ofNat (87 + n)

/-- The verb `%x` applied to a byte slice: two lowercase digits per byte. -/
def hexEncode (bytes : List Nat) : String :=
  String.mk (bytes.flatMap fun b => [hexDigit (b / 16), hexDigit (b % 16)])

/-- The function `strconv.Itoa`: decimal rendering of an integer. -/
def Itoa (i : Int) : String :=
  match i with
  | Int.ofNat n => String.mk (Nat.toDigits 10 n)
  | Int.negSucc n => "-" ++ String.mk (Nat.toDigits 10 (n + 1))

/-- The function `strings.Join`. -/
def Join : List String → String → String
  | [], _ => ""
  | [a], _ => a
  | a :: b :: rest, sep => a ++ sep ++ Join (b :: rest) sep

/-! ## The translation (lines 17 to 126) -/

/-- The loops of lines 32-40 and 55-63: every candidate that decodes to
exactly 32 bytes is re-encoded and quoted, the others are skipped. -/
def quoteValid : List String → List String
  | [] => []
  | id :: rest =>
    if (DecodeString id).2 ≠ none ∨ (DecodeString id).1.length ≠ 32 then quoteValid rest
    else ("\x27" ++ hexEncode (DecodeString id).1 ++ "\x27") :: quoteValid rest

/-- Lines 25-46: the `ids` criterion; `none` is the early return. -/
def idsCondition (filter : Filter) (conditions : List String) : Option (List String) :=
  match filter.IDs with
  | none => some conditions
  | some ids =>
    if ids.length > 500 then none
    else if (quoteValid ids).length = 0 then none
    else some (conditions ++ ["id IN (" ++ Join (quoteValid ids) "," ++ ")"])

/-- Lines 48-69: the `authors` criterion; `none` is the early return. -/
def authorsCondition (filter : Filter) (conditions : List String) : Option (List String) :=
  match filter.Authors with
  | none => some conditions
  | some authors =>
    if authors.length > 500 then none
    else if (quoteValid authors).length = 0 then none
    else some (conditions ++ ["pubkey IN (" ++ Join (quoteValid authors) "," ++ ")"])

/-- Lines 71-87: the `kinds` criterion; `none` is the early return. -/
def kindsCondition (filter : Filter) (conditions : List String) : Option (List String) :=
  match filter.Kinds with
  | none => some conditions
  | some kinds =>
    if kinds.length > 10 then none
    else if kinds.length = 0 then none
    else some (conditions ++ ["kind IN (" ++ Join (kinds.map Itoa) "," ++ ")"])

/-- Lines 90-103: the loop over the tag entries, started with the values
collected so far; `none` is the early return. -/
def tagLoop : List (String × List String) → List String → Option (List String)
  | [], tagQuery => some tagQuery
  | entry :: rest, tagQuery =>
    if entry.2.length = 0 then none
    else if (tagQuery ++ entry.2).length > 10 then none
    else tagLoop rest (tagQuery ++ entry.2)

/-- Lines 105-116: the overlap condition over the collected tag values. -/
def tagCondition (tagQuery : List String) (conditions : List String) (params : List Param) :
    List String × List Param :=
  if tagQuery.length > 0 then
    (conditions ++ ["tagvalues && ARRAY[" ++ Join (tagQuery.map fun _ => "?") "," ++ "]"],
      params ++ tagQuery.map Param.str)
  else (conditions, params)

/-- Lines 17-116 for a non-nil filter: the conditions and the parameters of
the criteria ids, authors, kinds and tags, or `none` when one of the early
returns is taken. -/
def buildCriteria (filter : Filter) : Option (List String × List Param) :=
  (idsCondition filter []).bind fun c1 =>
  (authorsCondition filter c1).bind fun c2 =>
  (kindsCondition filter c2).bind fun c3 =>
  (tagLoop filter.Tags []).bind fun tagQuery =>
  some (tagCondition tagQuery c3 [])

/-- Lines 119-122: the lower time bound. The call `filter.Since.Before` goes
through the pointer `filter.Since`; for the nil pointer it is a run-time panic
(nil pointer dereference), which is the result `none`. -/
def sinceCondition (filter : Filter) (acc : List String × List Param) :
    Option (List String × List Param) :=
  match filter.Since with
  | none => none
  | some since =>
    if since.Before aLongTimeAgo then
      some (acc.1 ++ ["created_at > ?"], acc.2 ++ [Param.int since.Unix])
    else some acc

/-- Lines 123-126: the upper time bound. The call `filter.Until.Before` goes
through the pointer `filter.Until`; for the nil pointer it is a run-time panic
(nil pointer dereference), which is the result `none`. -/
def untilCondition (filter : Filter) (acc : List String × List Param) :
    Option (List String × List Param) :=
  match filter.Until with
  | none => none
  | some untilTime =>
    if untilTime.Before aLongTimeAgo then
      some (acc.1 ++ ["created_at < ?"], acc.2 ++ [Param.int untilTime.Unix])
    else some acc

/-- How lines 17-126 end for a non-nil filter: with an early return, with a
run-time panic, or with the conditions and the parameters of the query. -/
inductive Translation where
  | aborted : Translation
  | panicked : Translation
  | query (conditions : List String) (params : List Param) : Translation
  deriving DecidableEq, Repr

/-- Lines 17-126 for a non-nil filter. -/
def buildConditions (filter : Filter) : Translation :=
  match buildCriteria filter with
  | none => Translation.aborted
  | some criteria =>
    match sinceCondition filter criteria with
    | none => Translation.panicked
    | some withSince =>
      match untilCondition filter withSince with
      | none => Translation.panicked
      | some (conditions, params) => Translation.query conditions params

/-! ## Assembly and execution (lines 128 to 146) -/

/-- Lines 128-131: the fallback when no condition was produced. -/
def withFallback (conditions : List String) : List String :=
  if conditions.length = 0 then conditions ++ ["true"] else conditions

/-- The predicate after `WHERE`: the conditions joined by `AND`. -/
def wherePredicate (conditions : List String) : String :=
  Join (withFallback conditions) " AND "

/-- Lines 133-137: the text given to `Rebind`. -/
def queryText (conditions : List String) : String :=
  "SELECT\n      id, pubkey, created_at, kind, tags, content, sig\n    FROM event WHERE " ++
    wherePredicate conditions ++ " ORDER BY created_at LIMIT 100"

/-- One call of `DB.Select`: the query text and the parameters. -/
structure Call where
  query : String
  params : List Param
  deriving DecidableEq, Repr

/-- One warning written to the log (lines 141-142). -/
structure Warning where
  err : GoError
  filter : Filter
  query : String
  msg : String
  deriving DecidableEq, Repr

/-- What a call of `QueryEvents` produces: the two named results, the effects
on the collaborators (storage calls and log entries, in order), and whether
the call ended in a run-time panic instead of returning; in that case
`events` and `err` are the values the named results hold at the panic. -/
structure Outcome where
  events : List Event
  err : Option GoError
  calls : List Call
  warnings : List Warning
  panicked : Bool

/-- Lines 139-146: the storage call and the treatment of its error. -/
def execute (b : BasicRelay) (filter : Filter) (query : String) (params : List Param) :
    Outcome :=
  match b.DB.Select query params with
  | (events, none) =>
    { events := events, err := none, calls := [⟨query, params⟩], warnings := [],
      panicked := false }
  | (events, some err) =>
    if err ≠ GoError.ErrNoRows then
      { events := events
        err := some (GoError.Wrap "failed to fetch events: " err)
        calls := [⟨query, params⟩]
        warnings := [⟨err, filter, query, "failed to fetch events"⟩]
        panicked := false }
    else
      { events := events, err := some err, calls := [⟨query, params⟩], warnings := [],
        panicked := false }

/-- The method `QueryEvents`; `none` is the nil filter. -/
def QueryEvents (b : BasicRelay) (filter : Option Filter) : Outcome :=
  match filter with
  | none =>
    { events := [], err := some (GoError.New "filter cannot be null"), calls := [],
      warnings := [], panicked := false }
  | some filter =>
    match buildConditions filter with
    | Translation.aborted =>
      { events := [], err := none, calls := [], warnings := [], panicked := false }
    | Translation.panicked =>
      { events := [], err := none, calls := [], warnings := [], panicked := true }
    | Translation.query conditions params =>
      execute b filter (b.DB.Rebind (queryText conditions)) params

/-! ## The abort rules, as the specification words them -/

/-- A candidate is usable when it decodes as hexadecimal, without error, to
exactly 32 bytes. -/
def validHex32 (s : String) : Bool :=
  decide ((DecodeString s).2 = none) && decide ((DecodeString s).1.length = 32)

/-- The rule for `ids` and `authors`: present with more than 500 entries, or
present with no usable entry. -/
def candidatesAbort : Option (List String) → Bool
  | none => false
  | some xs => decide (500 < xs.length) || xs.all fun x => !validHex32 x

/-- The rule for `kinds`: present with more than 10 entries, or present and
empty. -/
def kindsAbort : Option (List Int) → Bool
  | none => false
  | some ks => decide (10 < ks.length) || decide (ks.length = 0)

/-- The flattened tag values, in the order of the entries. -/
def flattenTags (tags : List (String × List String)) : List String :=
  tags.flatMap fun entry => entry.2

/-- The rule for the tag criteria: some entry is empty, or more than 10
values in total. -/
def tagsAbort (tags : List (String × List String)) : Bool :=
  (tags.any fun entry => decide (entry.2.length = 0)) || decide (10 < (flattenTags tags).length)

/-- Some abort rule of the validator applies to the filter. -/
def abortRule (f : Filter) : Bool :=
  candidatesAbort f.IDs || candidatesAbort f.Authors || kindsAbort f.Kinds || tagsAbort f.Tags

/-- The outcome of a silent abort: the call returns no rows and no error and
has no effect. -/
def Outcome.isSilentEmpty (o : Outcome) : Prop :=
  o.events = [] ∧ o.err = none ∧ o.calls = [] ∧ o.warnings = [] ∧ o.panicked = false

/-! ## The conditions, criterion by criterion -/

/-- The condition of the `ids` criterion, if the criterion is present. -/
def idsPart (f : Filter) : List String :=
  match f.IDs with
  | none => []
  | some ids => ["id IN (" ++ Join (quoteValid ids) "," ++ ")"]

/-- The condition of the `authors` criterion, if the criterion is present. -/
def authorsPart (f : Filter) : List String :=
  match f.Authors with
  | none => []
  | some authors => ["pubkey IN (" ++ Join (quoteValid authors) "," ++ ")"]

/-- The condition of the `kinds` criterion, if the criterion is present. -/
def kindsPart (f : Filter) : List String :=
  match f.Kinds with
  | none => []
  | some kinds => ["kind IN (" ++ Join (kinds.map Itoa) "," ++ ")"]

/-- The overlap condition, if the tag criteria contribute a value. -/
def tagPart (f : Filter) : List String :=
  if (flattenTags f.Tags).length > 0 then
    ["tagvalues && ARRAY[" ++ Join ((flattenTags f.Tags).map fun _ => "?") "," ++ "]"]
  else []

/-- The lower time bound and its parameter, for a `since` that is set and
strictly earlier than the sentinel. -/
def sincePart (f : Filter) : List String × List Param :=
  match f.Since with
  | none => ([], [])
  | some since =>
    if since.Before aLongTimeAgo then (["created_at > ?"], [Param.int since.Unix]) else ([], [])

/-- The upper time bound and its parameter, for an `until` that is set and
strictly earlier than the sentinel. -/
def untilPart (f : Filter) : List String × List Param :=
  match f.Until with
  | none => ([], [])
  | some untilTime =>
    if untilTime.Before aLongTimeAgo then (["created_at < ?"], [Param.int untilTime.Unix])
    else ([], [])

/-! ## Concrete inputs -/

/-- A store without rows that reports no error. -/
def emptyStore : BasicRelay := ⟨⟨fun q => q, fun _ _ => ([], none)⟩⟩

/-- A store that signals `sql.ErrNoRows` on every query. -/
def noRowsStore : BasicRelay := ⟨⟨fun q => q, fun _ _ => ([], some GoError.ErrNoRows)⟩⟩

/-- A store whose every query fails with a driver error. -/
def brokenStore : BasicRelay :=
  ⟨⟨fun q => q, fun _ _ => ([], some (GoError.Other "connection refused"))⟩⟩

/-- The zero value `nostr.Filter{}`: every criterion absent, `Since` and
`Until` nil. -/
def zeroFilter : Filter :=
  { IDs := none, Authors := none, Kinds := none, Tags := [], Since := none, Until := none }

/-- The filter `nostr.Filter{Since: &time.Time{}, Until: &time.Time{}}`: no
criterion, both time fields pointing to the zero value of `time.Time`. -/
def zeroTimesFilter : Filter :=
  { zeroFilter with Since := some Time.zero, Until := some Time.zero }

/-- A filter with eleven kinds. -/
def elevenKindsFilter : Filter :=
  { zeroFilter with Kinds := some [0, 1, 2, 3, 4, 5, 6, 7, 8, 9, 10] }

/-- A filter whose only id is not hexadecimal. -/
def badIdFilter : Filter := { zeroFilter with IDs := some ["not-hex"] }

/-- A filter with one tag criterion set to the empty list. -/
def emptyTagFilter : Filter := { zeroFilter with Tags := [("e", ["abc"]), ("p", [])] }

/-- The example filter with `kinds = [1]` and `since` = 2023-06-01T00:00:00Z
(Unix 1685577600), everything else as in the zero value: `Until` is nil. -/
def kindOneSinceFilter : Filter :=
  { zeroFilter with Kinds := some [1], Since := some (time.Unix 1685577600 0) }

/-- The filter `kindOneSinceFilter` with `until` set to 2023-11-14T22:13:20Z
(Unix 1700000000). -/
def kindOneSinceUntilFilter : Filter :=
  { kindOneSinceFilter with Until := some (time.Unix 1700000000 0) }

/-- A filter whose only criterion is the tag mapping with the two entries
`e -> [abc]` and `p -> [def]`; the flag says whether the loop visits the entry
`e` first. The time fields are set to the given times. -/
def twoTagFilter (eFirst : Bool) (sinceTime untilTime : Time) : Filter :=
  { IDs := none, Authors := none, Kinds := none,
    Tags := if eFirst then [("e", ["abc"]), ("p", ["def"])] else [("p", ["def"]), ("e", ["abc"])],
    Since := some sinceTime, Until := some untilTime }

/-- The filter whose only criterion is the tag mapping with the two entries
`e -> [abc]` and `p -> [def]`, `Since` and `Until` nil; the flag says whether
the loop visits the entry `e` first. -/
def twoTagUnsetFilter (eFirst : Bool) : Filter :=
  { IDs := none, Authors := none, Kinds := none,
    Tags := if eFirst then [("e", ["abc"]), ("p", ["def"])] else [("p", ["def"]), ("e", ["abc"])],
    Since := none, Until := none }

/-- A filter with `until` set to 2020-09-13T12:26:40Z (Unix 1600000000),
earlier than the sentinel, and nothing else: `Since` is nil. -/
def untilOnlyFilter : Filter := { zeroFilter with Until := some (time.Unix 1600000000 0) }

/-- A stored row, for the storage examples. -/
def sampleEvent : Event :=
  { ID := "", PubKey := "", CreatedAt := 1700000000, Kind := 1, Tags := [], Content := "hello",
    Sig := "" }

/-- A store that returns one row for every query. -/
def oneRowStore : BasicRelay := ⟨⟨fun q => q, fun _ _ => ([sampleEvent], none)⟩⟩

/-- A hexadecimal digit in either letter case: 0-9, a-f or A-F. -/
def isHexChar (c : Char) : Bool :=
  (decide (48 ≤ c.toNat) && decide (c.toNat ≤ 57)) ||
    (decide (97 ≤ c.toNat) && decide (c.toNat ≤ 102)) ||
    (decide (65 ≤ c.toNat) && decide (c.toNat ≤ 70))

/-- A lowercase hexadecimal digit: 0-9 or a-f. -/
def isLowerHexChar (c : Char) : Bool :=
  (decide (48 ≤ c.toNat) && decide (c.toNat ≤ 57)) ||
    (decide (97 ≤ c.toNat) && decide (c.toNat ≤ 102))

/-- The letters A-F are mapped to a-f, every other character is kept. -/
def lowerHexChar (c : Char) : Char :=
  if 65 ≤ c.toNat ∧ c.toNat ≤ 70 then Char.ofNat (c.toNat + 32) else c

/-- The literal of lines 39 and 62: the decoded bytes, printed with `%x`,
between single quotes. -/
def quoteHex (s : String) : String :=
  "\x27" ++ hexEncode (DecodeString s).1 ++ "\x27"

/-- A time after the sentinel of line 118: 2023-11-14T22:13:20Z, Unix second
1700000000. -/
def laterTime : Time := time.Unix 1700000000 0

/-- A filter with no criterion and both time fields set, after the sentinel. -/
def laterFilter : Filter :=
  { zeroFilter with Since := some laterTime, Until := some laterTime }

/-- A filter with no criterion, `until` after the sentinel and `since` the
largest Unix second of an `int64`: `time.Unix(math.MaxInt64, 0)`. -/
def maxSinceFilter : Filter :=
  { laterFilter with Since := some (time.Unix 9223372036854775807 0) }

/-- A filter with two ids: 64 hexadecimal digits of mixed case, and a string
that is not hexadecimal. -/
def hexIdFilter : Filter :=
  { laterFilter with
    IDs := some ["00112233445566778899AABBCCDDEEFF00112233445566778899aabbccddeeff", "xyz"] }

/-- A filter like `twoTagFilter true laterTime laterTime` whose two tag values
are replaced by other strings. -/
def hostileTagFilter : Filter :=
  { laterFilter with Tags := [("e", ["\x27) OR true --"]), ("p", ["?"])] }

/-- The name and the number of values of each tag entry. -/
def tagShape (tags : List (String × List String)) : List (String × Nat) :=
  tags.map fun entry => (entry.1, entry.2.length)

/-- A filter with every criterion present: one id, one author, two kinds, one
tag value, and both time fields before the sentinel. -/
def fullFilter : Filter :=
  { IDs := some ["00112233445566778899AABBCCDDEEFF00112233445566778899aabbccddeeff"],
    Authors := some ["ffeeddccbbaa99887766554433221100ffeeddccbbaa99887766554433221100"],
    Kinds := some [1, 7],
    Tags := [("e", ["abc"])],
    Since := some (time.Unix 1600000000 0),
    Until := some (time.Unix 1630000000 0) }

/-- Every run of whitespace characters is replaced by one blank. -/
def squeezeBlanks : List Char → List Char
  | [] => []
  | [c] => [if c.isWhitespace then ' ' else c]
  | c :: d :: rest =>
    if c.isWhitespace then
      if d.isWhitespace then squeezeBlanks (d :: rest) else ' ' :: squeezeBlanks (d :: rest)
    else c :: squeezeBlanks (d :: rest)

/-- The number of `?` placeholders in a text. -/
def placeholders (s : String) : Nat := s.data.count '?'

/-- A filter with three kinds, one of them negative and one repeated. -/
def threeKindsFilter : Filter := { laterFilter with Kinds := some [7, -3, 7] }

/-! ## Lemmas on the stages -/

theorem quoteValid_eq_nil_iff (xs : List String) :
    quoteValid xs = [] ↔ (xs.all fun x => !validHex32 x) = true := by
  induction xs with
  | nil => simp [quoteValid]
  | cons x rest ih =>
    by_cases hv : validHex32 x = true
    · have h := hv
      simp only [validHex32, Bool.and_eq_true, decide_eq_true_eq] at h
      simp [quoteValid, hv, h.1, h.2]
    · have h : (DecodeString x).2 ≠ none ∨ (DecodeString x).1.length ≠ 32 := by
        by_contra hc
        push_neg at hc
        exact hv (by simp [validHex32, hc.1, hc.2])
      simp only [Bool.not_eq_true] at hv
      simp only [quoteValid, if_pos h, ih, List.all_cons, hv, Bool.not_false, Bool.true_and]

theorem idsCondition_eq_none_iff (f : Filter) (c : List String) :
    idsCondition f c = none ↔ candidatesAbort f.IDs = true := by
  unfold idsCondition candidatesAbort
  cases f.IDs with
  | none => simp
  | some ids =>
    simp only [Bool.or_eq_true, decide_eq_true_eq, ← quoteValid_eq_nil_iff, List.length_eq_zero]
    by_cases h1 : 500 < ids.length
    · simp [h1]
    · by_cases h2 : quoteValid ids = [] <;> simp [h1, h2]

theorem authorsCondition_eq_none_iff (f : Filter) (c : List String) :
    authorsCondition f c = none ↔ candidatesAbort f.Authors = true := by
  unfold authorsCondition candidatesAbort
  cases f.Authors with
  | none => simp
  | some authors =>
    simp only [Bool.or_eq_true, decide_eq_true_eq, ← quoteValid_eq_nil_iff, List.length_eq_zero]
    by_cases h1 : 500 < authors.length
    · simp [h1]
    · by_cases h2 : quoteValid authors = [] <;> simp [h1, h2]

theorem kindsCondition_eq_none_iff (f : Filter) (c : List String) :
    kindsCondition f c = none ↔ kindsAbort f.Kinds = true := by
  unfold kindsCondition kindsAbort
  cases f.Kinds with
  | none => simp
  | some kinds =>
    simp only [Bool.or_eq_true, decide_eq_true_eq]
    by_cases h1 : 10 < kinds.length
    · simp [h1]
    · by_cases h2 : kinds.length = 0 <;> simp [h1, h2]

theorem flattenTags_cons (e : String × List String) (rest : List (String × List String)) :
    flattenTags (e :: rest) = e.2 ++ flattenTags rest := by
  simp [flattenTags]

theorem tagLoop_eq_none_iff (tags : List (String × List String)) (acc : List String)
    (hacc : acc.length ≤ 10) :
    tagLoop tags acc = none ↔
      (tags.any fun entry => decide (entry.2.length = 0)) = true ∨
        10 < acc.length + (flattenTags tags).length := by
  induction tags generalizing acc with
  | nil => simp [tagLoop, flattenTags]; omega
  | cons e rest ih =>
    simp only [tagLoop, flattenTags_cons, List.any_cons, Bool.or_eq_true, decide_eq_true_eq,
      List.length_append]
    by_cases h0 : e.2.length = 0
    · simp [h0]
    · by_cases h1 : 10 < acc.length + e.2.length
      · simp only [h0, if_false, List.length_append, h1, if_true, false_or, true_iff]
        right; omega
      · have hle : (acc ++ e.2).length ≤ 10 := by simp only [List.length_append]; omega
        simp only [h0, if_false, List.length_append, h1, false_or, ih _ hle, Nat.add_assoc]

theorem tagLoop_eq_some (tags : List (String × List String)) (acc out : List String)
    (h : tagLoop tags acc = some out) : out = acc ++ flattenTags tags := by
  induction tags generalizing acc with
  | nil => simp [tagLoop, flattenTags] at *; exact h.symm
  | cons e rest ih =>
    simp only [tagLoop] at h
    split at h
    · exact absurd h (by simp)
    · split at h
      · exact absurd h (by simp)
      · rw [ih _ h, flattenTags_cons, List.append_assoc]

theorem buildCriteria_eq_none_iff (f : Filter) :
    buildCriteria f = none ↔ abortRule f = true := by
  have ht := tagLoop_eq_none_iff f.Tags [] (by simp)
  simp only [List.length_nil, Nat.zero_add] at ht
  simp only [abortRule, tagsAbort, Bool.or_eq_true, decide_eq_true_eq,
    ← idsCondition_eq_none_iff f [], ← ht]
  unfold buildCriteria
  cases h1 : idsCondition f [] with
  | none => simp
  | some c1 =>
    cases h2 : authorsCondition f c1 with
    | none =>
      have := (authorsCondition_eq_none_iff f c1).1 h2
      simp [this, h2]
    | some c2 =>
      have h2n : ¬ candidatesAbort f.Authors = true := by
        rw [← authorsCondition_eq_none_iff f c1, h2]; simp
      cases h3 : kindsCondition f c2 with
      | none =>
        have := (kindsCondition_eq_none_iff f c2).1 h3
        simp [this, h2, h3]
      | some c3 =>
        have h3n : ¬ kindsAbort f.Kinds = true := by
          rw [← kindsCondition_eq_none_iff f c2, h3]; simp
        cases h4 : tagLoop f.Tags [] with
        | none => simp [h2, h3, h4]
        | some tq => simp [h2n, h3n, h2, h3, h4]

theorem buildCriteria_eq_some (f : Filter) (h : abortRule f = false) :
    buildCriteria f = some
      (idsPart f ++ authorsPart f ++ kindsPart f ++ tagPart f,
        (flattenTags f.Tags).map Param.str) := by
  cases hb : buildCriteria f with
  | none => rw [(buildCriteria_eq_none_iff f).1 hb] at h; exact absurd h (by simp)
  | some r =>
    unfold buildCriteria at hb
    cases h1 : idsCondition f [] with
    | none => simp [h1] at hb
    | some c1 =>
      cases h2 : authorsCondition f c1 with
      | none => simp [h1, h2] at hb
      | some c2 =>
        cases h3 : kindsCondition f c2 with
        | none => simp [h1, h2, h3] at hb
        | some c3 =>
          cases h4 : tagLoop f.Tags [] with
          | none => simp [h1, h2, h3, h4] at hb
          | some tq =>
            simp only [h1, h2, h3, h4, Option.some_bind, Option.some.injEq] at hb
            have e4 := tagLoop_eq_some _ _ _ h4
            simp only [List.nil_append] at e4
            have e1 : c1 = idsPart f := by
              unfold idsCondition at h1; unfold idsPart
              cases hf : f.IDs with
              | none => simp [hf] at h1; simp [h1]
              | some ids =>
                simp only [hf] at h1
                split at h1
                · exact absurd h1 (by simp)
                · split at h1
                  · exact absurd h1 (by simp)
                  · simpa using h1.symm
            have e2 : c2 = c1 ++ authorsPart f := by
              unfold authorsCondition at h2; unfold authorsPart
              cases hf : f.Authors with
              | none => simp [hf] at h2; simp [h2]
              | some authors =>
                simp only [hf] at h2
                split at h2
                · exact absurd h2 (by simp)
                · split at h2
                  · exact absurd h2 (by simp)
                  · simpa using h2.symm
            have e3 : c3 = c2 ++ kindsPart f := by
              unfold kindsCondition at h3; unfold kindsPart
              cases hf : f.Kinds with
              | none => simp [hf] at h3; simp [h3]
              | some kinds =>
                simp only [hf] at h3
                split at h3
                · exact absurd h3 (by simp)
                · split at h3
                  · exact absurd h3 (by simp)
                  · simpa using h3.symm
            have e5 : tagCondition tq c3 [] = (c3 ++ tagPart f, (flattenTags f.Tags).map Param.str) := by
              subst e4
              unfold tagCondition tagPart
              split <;> simp_all
            rw [← hb, e5, e3, e2, e1]

theorem buildConditions_eq_aborted_iff (f : Filter) :
    buildConditions f = Translation.aborted ↔ abortRule f = true := by
  rw [← buildCriteria_eq_none_iff]
  unfold buildConditions
  cases buildCriteria f with
  | none => simp
  | some criteria =>
    simp only [reduceCtorEq, iff_false]
    split
    · simp
    · split <;> simp

theorem buildConditions_eq_query (f : Filter) (h : abortRule f = false) (hs : f.Since ≠ none)
    (hu : f.Until ≠ none) :
    buildConditions f = Translation.query
      (idsPart f ++ authorsPart f ++ kindsPart f ++ tagPart f ++ (sincePart f).1 ++
        (untilPart f).1)
      ((flattenTags f.Tags).map Param.str ++ (sincePart f).2 ++ (untilPart f).2) := by
  unfold buildConditions
  rw [buildCriteria_eq_some f h]
  unfold sinceCondition untilCondition sincePart untilPart
  cases hfs : f.Since with
  | none => exact absurd hfs hs
  | some since =>
    cases hfu : f.Until with
    | none => exact absurd hfu hu
    | some untilTime =>
      by_cases h1 : since.Before aLongTimeAgo = true <;>
        by_cases h2 : untilTime.Before aLongTimeAgo = true <;>
        simp [h1, h2]

theorem buildConditions_eq_panicked_iff (f : Filter) :
    buildConditions f = Translation.panicked ↔
      abortRule f = false ∧ (f.Since = none ∨ f.Until = none) := by
  cases ha : abortRule f with
  | true =>
    rw [(buildConditions_eq_aborted_iff f).2 ha]
    simp
  | false =>
    by_cases hs : f.Since = none
    · unfold buildConditions
      rw [buildCriteria_eq_some f ha]
      simp [sinceCondition, hs]
    · by_cases hu : f.Until = none
      · unfold buildConditions
        rw [buildCriteria_eq_some f ha]
        unfold sinceCondition untilCondition
        cases hfs : f.Since with
        | none => exact absurd hfs hs
        | some since =>
          by_cases h1 : since.Before aLongTimeAgo = true <;> simp [h1, hu]
      · rw [buildConditions_eq_query f ha hs hu]
        simp [hs, hu]

theorem buildConditions_query_inv (f : Filter) (conditions : List String)
    (params : List Param) (h : buildConditions f = Translation.query conditions params) :
    abortRule f = false ∧ f.Since ≠ none ∧ f.Until ≠ none := by
  cases ha : abortRule f with
  | true =>
    rw [(buildConditions_eq_aborted_iff f).2 ha] at h
    exact absurd h (by simp)
  | false =>
    refine ⟨rfl, ?_, ?_⟩
    · intro hs
      have := (buildConditions_eq_panicked_iff f).2 ⟨ha, Or.inl hs⟩
      rw [this] at h
      exact absurd h (by simp)
    · intro hu
      have := (buildConditions_eq_panicked_iff f).2 ⟨ha, Or.inr hu⟩
      rw [this] at h
      exact absurd h (by simp)

theorem buildConditions_query_form (f : Filter) (conditions : List String)
    (params : List Param) (h : buildConditions f = Translation.query conditions params) :
    conditions = idsPart f ++ authorsPart f ++ kindsPart f ++ tagPart f ++ (sincePart f).1 ++
        (untilPart f).1 ∧
      params = (flattenTags f.Tags).map Param.str ++ (sincePart f).2 ++ (untilPart f).2 := by
  obtain ⟨ha, hs, hu⟩ := buildConditions_query_inv f conditions params h
  rw [buildConditions_eq_query f ha hs hu] at h
  simp only [Translation.query.injEq] at h
  exact ⟨h.1.symm, h.2.symm⟩

theorem QueryEvents_of_abort (b : BasicRelay) (f : Filter) (h : abortRule f = true) :
    QueryEvents b (some f) =
      { events := [], err := none, calls := [], warnings := [], panicked := false } := by
  have hn := (buildConditions_eq_aborted_iff f).2 h
  simp [QueryEvents, hn]

theorem QueryEvents_of_panic (b : BasicRelay) (f : Filter)
    (h : buildConditions f = Translation.panicked) :
    QueryEvents b (some f) =
      { events := [], err := none, calls := [], warnings := [], panicked := true } := by
  simp [QueryEvents, h]

/-! ## The claims -/

/-- C1: a non-nil filter with more than 500 ids, or more than 500 authors, or
more than 10 kinds, or more than 10 flattened tag values, makes `QueryEvents`
return (without panic) no events and no error; no query is built and the
storage collaborator is not called. -/
theorem C1_over_limit_is_silent_empty (b : BasicRelay) (f : Filter)
    (h : (∃ ids, f.IDs = some ids ∧ 500 < ids.length) ∨
      (∃ authors, f.Authors = some authors ∧ 500 < authors.length) ∨
      (∃ kinds, f.Kinds = some kinds ∧ 10 < kinds.length) ∨
      10 < (flattenTags f.Tags).length) :
    (QueryEvents b (some f)).events = [] ∧ (QueryEvents b (some f)).err = none ∧
      (QueryEvents b (some f)).calls = [] ∧ (QueryEvents b (some f)).panicked = false ∧
      buildConditions f = Translation.aborted := by
  have ha : abortRule f = true := by
    rcases h with ⟨ids, h1, h2⟩ | ⟨authors, h1, h2⟩ | ⟨kinds, h1, h2⟩ | h
    · simp [abortRule, candidatesAbort, h1, h2]
    · simp [abortRule, candidatesAbort, h1, h2]
    · simp [abortRule, kindsAbort, h1, h2]
    · simp [abortRule, tagsAbort, h]
  rw [QueryEvents_of_abort b f ha]
  exact ⟨rfl, rfl, rfl, rfl, (buildConditions_eq_aborted_iff f).2 ha⟩

/-- C1, at a filter with eleven kinds. -/
theorem C1_over_limit_is_silent_empty_witness :
    (QueryEvents emptyStore (some elevenKindsFilter)).events = [] ∧
      (QueryEvents emptyStore (some elevenKindsFilter)).err = none ∧
      (QueryEvents emptyStore (some elevenKindsFilter)).calls = [] ∧
      (QueryEvents emptyStore (some elevenKindsFilter)).panicked = false ∧
      buildConditions elevenKindsFilter = Translation.aborted :=
  C1_over_limit_is_silent_empty emptyStore elevenKindsFilter
    (Or.inr (Or.inr (Or.inl ⟨[0, 1, 2, 3, 4, 5, 6, 7, 8, 9, 10], rfl, by decide⟩)))

/-- C2: for the nil filter `QueryEvents` returns the error "filter cannot be
null", no events, and does not call the storage collaborator; for a non-nil
filter rejected by an abort rule the returned error is nil. -/
theorem C2_nil_filter_error_and_silent_aborts (b : BasicRelay) (f : Filter)
    (h : abortRule f = true) :
    ((QueryEvents b none).err = some (GoError.New "filter cannot be null") ∧
      (QueryEvents b none).err.map GoError.Error = some "filter cannot be null" ∧
      (QueryEvents b none).events = [] ∧ (QueryEvents b none).calls = [] ∧
      (QueryEvents b none).panicked = false) ∧
      (QueryEvents b (some f)).err = none ∧ (QueryEvents b (some f)).panicked = false := by
  rw [QueryEvents_of_abort b f h]
  exact ⟨⟨rfl, rfl, rfl, rfl, rfl⟩, rfl, rfl⟩

/-- C2, at a filter whose only id is not hexadecimal. -/
theorem C2_nil_filter_error_and_silent_aborts_witness :
    abortRule badIdFilter = true ∧
      ((QueryEvents emptyStore none).err = some (GoError.New "filter cannot be null") ∧
        (QueryEvents emptyStore none).err.map GoError.Error = some "filter cannot be null" ∧
        (QueryEvents emptyStore none).events = [] ∧ (QueryEvents emptyStore none).calls = [] ∧
        (QueryEvents emptyStore none).panicked = false) ∧
      (QueryEvents emptyStore (some badIdFilter)).err = none ∧
      (QueryEvents emptyStore (some badIdFilter)).panicked = false :=
  ⟨by decide, C2_nil_filter_error_and_silent_aborts emptyStore badIdFilter (by decide)⟩

/-- C3: a non-nil filter whose ids criterion is present (the empty list
included) with no candidate that decodes to exactly 32 bytes makes
`QueryEvents` return no events and no error without calling storage; the same
holds for the authors criterion. -/
theorem C3_no_valid_candidate_is_silent_empty (b : BasicRelay) (f : Filter)
    (h : (∃ ids, f.IDs = some ids ∧ ∀ id ∈ ids, validHex32 id = false) ∨
      (∃ authors, f.Authors = some authors ∧ ∀ key ∈ authors, validHex32 key = false)) :
    (QueryEvents b (some f)).events = [] ∧ (QueryEvents b (some f)).err = none ∧
      (QueryEvents b (some f)).calls = [] ∧ (QueryEvents b (some f)).panicked = false := by
  have ha : abortRule f = true := by
    rcases h with ⟨ids, h1, h2⟩ | ⟨authors, h1, h2⟩
    · have : (ids.all fun x => !validHex32 x) = true := by
        simp only [List.all_eq_true, Bool.not_eq_true']; exact h2
      simp [abortRule, candidatesAbort, h1, this]
    · have : (authors.all fun x => !validHex32 x) = true := by
        simp only [List.all_eq_true, Bool.not_eq_true']; exact h2
      simp [abortRule, candidatesAbort, h1, this]
  rw [QueryEvents_of_abort b f ha]
  exact ⟨rfl, rfl, rfl, rfl⟩

/-- C3, at a filter whose only id is not hexadecimal. -/
theorem C3_no_valid_candidate_is_silent_empty_witness :
    (QueryEvents emptyStore (some badIdFilter)).events = [] ∧
      (QueryEvents emptyStore (some badIdFilter)).err = none ∧
      (QueryEvents emptyStore (some badIdFilter)).calls = [] ∧
      (QueryEvents emptyStore (some badIdFilter)).panicked = false :=
  C3_no_valid_candidate_is_silent_empty emptyStore badIdFilter
    (Or.inl ⟨["not-hex"], rfl, by decide⟩)

/-- C4: a non-nil filter whose kinds criterion is the explicitly empty list,
or one of whose tag entries has an empty value list, makes `QueryEvents`
return no events and no error without calling storage, whatever the other
criteria and tag entries are. -/
theorem C4_empty_kinds_or_tag_is_silent_empty (b : BasicRelay) (f : Filter)
    (h : f.Kinds = some [] ∨ ∃ entry ∈ f.Tags, entry.2 = []) :
    (QueryEvents b (some f)).events = [] ∧ (QueryEvents b (some f)).err = none ∧
      (QueryEvents b (some f)).calls = [] ∧ (QueryEvents b (some f)).panicked = false := by
  have ha : abortRule f = true := by
    rcases h with h | ⟨entry, h1, h2⟩
    · simp [abortRule, kindsAbort, h]
    · have : (f.Tags.any fun entry => decide (entry.2.length = 0)) = true := by
        simp only [List.any_eq_true, decide_eq_true_eq]
        exact ⟨entry, h1, by simp [h2]⟩
      simp only [abortRule, tagsAbort, this, Bool.true_or, Bool.or_true]
  rw [QueryEvents_of_abort b f ha]
  exact ⟨rfl, rfl, rfl, rfl⟩

/-- C4, at a filter with one tag criterion set to the empty list. -/
theorem C4_empty_kinds_or_tag_is_silent_empty_witness :
    (QueryEvents emptyStore (some emptyTagFilter)).events = [] ∧
      (QueryEvents emptyStore (some emptyTagFilter)).err = none ∧
      (QueryEvents emptyStore (some emptyTagFilter)).calls = [] ∧
      (QueryEvents emptyStore (some emptyTagFilter)).panicked = false :=
  C4_empty_kinds_or_tag_is_silent_empty emptyStore emptyTagFilter
    (Or.inr ⟨("p", []), by decide, rfl⟩)

theorem execute_calls (b : BasicRelay) (f : Filter) (q : String) (ps : List Param) :
    (execute b f q ps).calls = [⟨q, ps⟩] := by
  unfold execute
  split
  · rfl
  · split <;> rfl

theorem execute_ErrNoRows (b : BasicRelay) (f : Filter) (q : String) (ps : List Param)
    (rows : List Event) (h : b.DB.Select q ps = (rows, some GoError.ErrNoRows)) :
    (execute b f q ps).err = some GoError.ErrNoRows ∧ (execute b f q ps).events = rows := by
  simp [execute, h]

theorem execute_panicked (b : BasicRelay) (f : Filter) (q : String) (ps : List Param) :
    (execute b f q ps).panicked = false := by
  unfold execute
  split
  · rfl
  · split <;> rfl

/-- C5: at a filter that reaches storage (no criterion, since and until set
after the sentinel), with a store that signals `sql.ErrNoRows`, `QueryEvents`
returns no events but hands the error `sql.ErrNoRows` back to the caller: the
returned error is not nil. -/
theorem C5_no_rows_error_reaches_caller :
    (QueryEvents noRowsStore (some laterFilter)).calls.length = 1 ∧
      (QueryEvents noRowsStore (some laterFilter)).events = [] ∧
      (QueryEvents noRowsStore (some laterFilter)).err = some GoError.ErrNoRows ∧
      (QueryEvents noRowsStore (some laterFilter)).err ≠ none ∧
      (QueryEvents noRowsStore (some laterFilter)).panicked = false := by
  decide

/-- C6: for a filter that reaches storage, a storage error other than
`sql.ErrNoRows` comes back wrapped (message "failed to fetch events: " followed
by the message of the storage error, the storage error recoverable by
unwrapping), and a storage call without error comes back as exactly its rows
with a nil error; storage is called once in both cases and the call returns
without panic. -/
theorem C6_storage_failure_wrapped_success_passed (b : BasicRelay) (f : Filter)
    (conditions : List String) (params : List Param) (rows : List Event)
    (res : Option GoError)
    (hb : buildConditions f = Translation.query conditions params)
    (hs : b.DB.Select (b.DB.Rebind (queryText conditions)) params = (rows, res)) :
    (∀ e, res = some e → e ≠ GoError.ErrNoRows →
      ∃ w, (QueryEvents b (some f)).err = some w ∧
        w.Error = "failed to fetch events: " ++ e.Error ∧ w.Unwrap = some e) ∧
      (res = none → (QueryEvents b (some f)).events = rows ∧
        (QueryEvents b (some f)).err = none) ∧
      (QueryEvents b (some f)).calls = [⟨b.DB.Rebind (queryText conditions), params⟩] ∧
      (QueryEvents b (some f)).panicked = false := by
  refine ⟨?_, ?_, ?_, ?_⟩
  · intro e he hne
    subst he
    exact ⟨GoError.Wrap "failed to fetch events: " e, by simp [QueryEvents, hb, execute, hs, hne],
      rfl, rfl⟩
  · intro he
    subst he
    simp [QueryEvents, hb, execute, hs]
  · simp only [QueryEvents, hb, execute_calls]
  · simp only [QueryEvents, hb, execute_panicked]

/-- C6, at the filter with both time fields at the zero time, with a store
whose queries fail. -/
theorem C6_storage_failure_wrapped_success_passed_witness :
    (∀ e, some (GoError.Other "connection refused") = some e → e ≠ GoError.ErrNoRows →
      ∃ w, (QueryEvents brokenStore (some zeroTimesFilter)).err = some w ∧
        w.Error = "failed to fetch events: " ++ e.Error ∧ w.Unwrap = some e) ∧
      (some (GoError.Other "connection refused") = none →
        (QueryEvents brokenStore (some zeroTimesFilter)).events = [] ∧
          (QueryEvents brokenStore (some zeroTimesFilter)).err = none) ∧
      (QueryEvents brokenStore (some zeroTimesFilter)).calls =
        [⟨brokenStore.DB.Rebind (queryText ["created_at > ?", "created_at < ?"]),
          [Param.int (-62135596800), Param.int (-62135596800)]⟩] ∧
      (QueryEvents brokenStore (some zeroTimesFilter)).panicked = false :=
  C6_storage_failure_wrapped_success_passed brokenStore zeroTimesFilter
    ["created_at > ?", "created_at < ?"] [Param.int (-62135596800), Param.int (-62135596800)]
    [] (some (GoError.Other "connection refused")) (by decide) rfl

/-- C7: at the zero filter (every criterion absent, `Since` and `Until` nil)
no abort rule applies and the call `filter.Since.Before` of line 119 goes
through the nil pointer: `QueryEvents` panics, for every store, before any
predicate is built and without a storage call, instead of producing the
always-true predicate. -/
theorem C7_zero_filter_panics_at_line_119 :
    abortRule zeroFilter = false ∧
      buildCriteria zeroFilter = some ([], []) ∧
      sinceCondition zeroFilter ([], []) = none ∧
      buildConditions zeroFilter = Translation.panicked ∧
      ∀ b : BasicRelay, (QueryEvents b (some zeroFilter)).panicked = true ∧
        (QueryEvents b (some zeroFilter)).calls = [] ∧
        (QueryEvents b (some zeroFilter)).events = [] := by
  refine ⟨by decide, by decide, by decide, by decide, ?_⟩
  intro b
  rw [QueryEvents_of_panic b zeroFilter (by decide)]
  exact ⟨rfl, rfl, rfl⟩

/-- C8: at the filter with `kinds = [1]`, `since` = 2023-06-01T00:00:00Z and
`Until` nil, line 119 emits no lower bound (the time is not earlier than the
sentinel) and the call `filter.Until.Before` of line 123 goes through the nil
pointer: `QueryEvents` panics, for every store, without a storage call. With
`until` set after the sentinel the query is generated and its only condition
is "kind IN (1)", with no parameter. -/
theorem C8_kind_one_since_2023_panics_at_line_123 :
    buildCriteria kindOneSinceFilter = some (["kind IN (1)"], []) ∧
      sinceCondition kindOneSinceFilter (["kind IN (1)"], []) = some (["kind IN (1)"], []) ∧
      untilCondition kindOneSinceFilter (["kind IN (1)"], []) = none ∧
      buildConditions kindOneSinceFilter = Translation.panicked ∧
      (∀ b : BasicRelay, (QueryEvents b (some kindOneSinceFilter)).panicked = true ∧
        (QueryEvents b (some kindOneSinceFilter)).calls = []) ∧
      buildConditions kindOneSinceUntilFilter = Translation.query ["kind IN (1)"] [] ∧
      (QueryEvents emptyStore (some kindOneSinceUntilFilter)).calls =
        [⟨"SELECT\n      id, pubkey, created_at, kind, tags, content, sig\n    FROM event WHERE kind IN (1) ORDER BY created_at LIMIT 100",
          []⟩] := by
  refine ⟨by decide, by decide, by decide, by decide, ?_, by decide, by decide⟩
  intro b
  rw [QueryEvents_of_panic b kindOneSinceFilter (by decide)]
  exact ⟨rfl, rfl⟩

theorem head_ne_of_data_head (a b : String) (x y : Char) (ha : a.data.head? = some x)
    (hb : b.data.head? = some y) (hxy : x ≠ y) : a ≠ b := by
  intro h
  rw [h, hb] at ha
  exact hxy (Option.some.inj ha).symm

theorem criteria_head (f : Filter) (c : String)
    (hc : c ∈ idsPart f ++ authorsPart f ++ kindsPart f ++ tagPart f) :
    c.data.head? = some (Char.ofNat 105) ∨ c.data.head? = some (Char.ofNat 112) ∨
      c.data.head? = some (Char.ofNat 107) ∨ c.data.head? = some (Char.ofNat 116) := by
  simp only [List.mem_append] at hc
  rcases hc with ((hc | hc) | hc) | hc
  · unfold idsPart at hc
    split at hc
    · simp at hc
    · simp only [List.mem_singleton] at hc
      subst hc
      left
      simp only [String.data_append]; rfl
  · unfold authorsPart at hc
    split at hc
    · simp at hc
    · simp only [List.mem_singleton] at hc
      subst hc
      right; left
      simp only [String.data_append]; rfl
  · unfold kindsPart at hc
    split at hc
    · simp at hc
    · simp only [List.mem_singleton] at hc
      subst hc
      right; right; left
      simp only [String.data_append]; rfl
  · unfold tagPart at hc
    split at hc
    · simp only [List.mem_singleton] at hc
      subst hc
      right; right; right
      simp only [String.data_append]; rfl
    · simp at hc

theorem criteria_not_time_bound (f : Filter) (c : String)
    (hc : c ∈ idsPart f ++ authorsPart f ++ kindsPart f ++ tagPart f) :
    c ≠ "created_at > ?" ∧ c ≠ "created_at < ?" := by
  have hgt : "created_at > ?".data.head? = some (Char.ofNat 99) := rfl
  have hlt : "created_at < ?".data.head? = some (Char.ofNat 99) := rfl
  rcases criteria_head f c hc with h | h | h | h
  · exact ⟨head_ne_of_data_head _ _ _ _ h hgt (by decide),
      head_ne_of_data_head _ _ _ _ h hlt (by decide)⟩
  · exact ⟨head_ne_of_data_head _ _ _ _ h hgt (by decide),
      head_ne_of_data_head _ _ _ _ h hlt (by decide)⟩
  · exact ⟨head_ne_of_data_head _ _ _ _ h hgt (by decide),
      head_ne_of_data_head _ _ _ _ h hlt (by decide)⟩
  · exact ⟨head_ne_of_data_head _ _ _ _ h hgt (by decide),
      head_ne_of_data_head _ _ _ _ h hlt (by decide)⟩

theorem abortRule_false_of_query (f : Filter) (conditions : List String)
    (params : List Param) (h : buildConditions f = Translation.query conditions params) :
    abortRule f = false :=
  (buildConditions_query_inv f conditions params h).1

theorem query_time_bounds (f : Filter) (conditions : List String) (params : List Param)
    (h : buildConditions f = Translation.query conditions params) :
    ∃ since untilTime criteria, f.Since = some since ∧ f.Until = some untilTime ∧
      "created_at > ?" ∉ criteria ∧ "created_at < ?" ∉ criteria ∧
      conditions = criteria ++
        (if since.Before aLongTimeAgo = true then ["created_at > ?"] else []) ++
        (if untilTime.Before aLongTimeAgo = true then ["created_at < ?"] else []) ∧
      params = (flattenTags f.Tags).map Param.str ++
        (if since.Before aLongTimeAgo = true then [Param.int since.Unix] else []) ++
        (if untilTime.Before aLongTimeAgo = true then [Param.int untilTime.Unix] else []) := by
  obtain ⟨-, hs, hu⟩ := buildConditions_query_inv f conditions params h
  obtain ⟨hc, hp⟩ := buildConditions_query_form f conditions params h
  cases hfs : f.Since with
  | none => exact absurd hfs hs
  | some since =>
    cases hfu : f.Until with
    | none => exact absurd hfu hu
    | some untilTime =>
      refine ⟨since, untilTime, idsPart f ++ authorsPart f ++ kindsPart f ++ tagPart f, rfl, rfl,
        fun hm => (criteria_not_time_bound f _ hm).1 rfl,
        fun hm => (criteria_not_time_bound f _ hm).2 rfl, ?_, ?_⟩
      · rw [hc]
        unfold sincePart untilPart
        rw [hfs, hfu]
        by_cases h1 : since.Before aLongTimeAgo = true <;>
          by_cases h2 : untilTime.Before aLongTimeAgo = true <;>
          simp [h1, h2]
      · rw [hp]
        unfold sincePart untilPart
        rw [hfs, hfu]
        by_cases h1 : since.Before aLongTimeAgo = true <;>
          by_cases h2 : untilTime.Before aLongTimeAgo = true <;>
          simp [h1, h2]

theorem maxSince_wraps :
    (time.Unix 9223372036854775807 0).Before aLongTimeAgo = true ∧
      (time.Unix 9223372036854775807 0).Unix = 9223372036854775807 ∧
      buildConditions maxSinceFilter =
        Translation.query ["created_at > ?"] [Param.int 9223372036854775807] := by
  decide

/-- C9, as stated, fails: at the filter whose only criterion is the two tag
entries, with `Since` and `Until` nil, `QueryEvents` panics under either order
of enumeration, without a storage call; and with both time fields set after
the sentinel, when the loop visits the entry `p` before the entry `e`, the
single overlap condition has the parameters "def", "abc", not "abc", "def". -/
theorem C9_two_tags_counterexample :
    (∀ (eFirst : Bool) (b : BasicRelay),
      (QueryEvents b (some (twoTagUnsetFilter eFirst))).panicked = true ∧
        (QueryEvents b (some (twoTagUnsetFilter eFirst))).calls = []) ∧
      buildConditions (twoTagFilter false laterTime laterTime) =
        Translation.query ["tagvalues && ARRAY[?,?]"] [Param.str "def", Param.str "abc"] ∧
      ([Param.str "def", Param.str "abc"] : List Param) ≠ [Param.str "abc", Param.str "def"] := by
  refine ⟨?_, by decide, by decide⟩
  intro eFirst b
  have h : buildConditions (twoTagUnsetFilter eFirst) = Translation.panicked := by
    cases eFirst <;> decide
  rw [QueryEvents_of_panic b _ h]
  exact ⟨rfl, rfl⟩

/-- C9, amended: for the filter whose only criterion is the two tag entries
`e -> [abc]` and `p -> [def]`, with since and until set to times that are not
earlier than the sentinel, the query has exactly one condition, the overlap
predicate "tagvalues && ARRAY[?,?]", which is the whole predicate, and the
parameter list is exactly the two tag values in the order in which the
entries are visited: "abc", "def" when `e` comes first, "def", "abc" when `p`
comes first. -/
theorem C9_two_tags_one_overlap_condition (sinceTime untilTime : Time)
    (hs : sinceTime.Before aLongTimeAgo = false)
    (hu : untilTime.Before aLongTimeAgo = false) :
    buildConditions (twoTagFilter true sinceTime untilTime) =
        Translation.query ["tagvalues && ARRAY[?,?]"] [Param.str "abc", Param.str "def"] ∧
      buildConditions (twoTagFilter false sinceTime untilTime) =
        Translation.query ["tagvalues && ARRAY[?,?]"] [Param.str "def", Param.str "abc"] ∧
      wherePredicate ["tagvalues && ARRAY[?,?]"] = "tagvalues && ARRAY[?,?]" ∧
      (∀ b : BasicRelay,
        (QueryEvents b (some (twoTagFilter true sinceTime untilTime))).calls =
          [⟨b.DB.Rebind "SELECT\n      id, pubkey, created_at, kind, tags, content, sig\n    FROM event WHERE tagvalues && ARRAY[?,?] ORDER BY created_at LIMIT 100",
            [Param.str "abc", Param.str "def"]⟩] ∧
        (QueryEvents b (some (twoTagFilter false sinceTime untilTime))).calls =
          [⟨b.DB.Rebind "SELECT\n      id, pubkey, created_at, kind, tags, content, sig\n    FROM event WHERE tagvalues && ARRAY[?,?] ORDER BY created_at LIMIT 100",
            [Param.str "def", Param.str "abc"]⟩]) := by
  have h1 : buildConditions (twoTagFilter true sinceTime untilTime) =
      Translation.query ["tagvalues && ARRAY[?,?]"] [Param.str "abc", Param.str "def"] := by
    rw [buildConditions_eq_query (twoTagFilter true sinceTime untilTime) rfl (by simp [twoTagFilter])
      (by simp [twoTagFilter])]
    simp only [sincePart, untilPart, twoTagFilter, hs, hu]
    rfl
  have h2 : buildConditions (twoTagFilter false sinceTime untilTime) =
      Translation.query ["tagvalues && ARRAY[?,?]"] [Param.str "def", Param.str "abc"] := by
    rw [buildConditions_eq_query (twoTagFilter false sinceTime untilTime) rfl
      (by simp [twoTagFilter]) (by simp [twoTagFilter])]
    simp only [sincePart, untilPart, twoTagFilter, hs, hu]
    rfl
  have ht : queryText ["tagvalues && ARRAY[?,?]"] =
      "SELECT\n      id, pubkey, created_at, kind, tags, content, sig\n    FROM event WHERE tagvalues && ARRAY[?,?] ORDER BY created_at LIMIT 100" := by
    decide
  refine ⟨h1, h2, by decide, ?_⟩
  intro b
  constructor
  · simp only [QueryEvents, h1, execute_calls, ht]
  · simp only [QueryEvents, h2, execute_calls, ht]

/-- C9 amended, at both time fields set to 2023-11-14T22:13:20Z. -/
theorem C9_two_tags_one_overlap_condition_witness :
    laterTime.Before aLongTimeAgo = false ∧
      buildConditions (twoTagFilter true laterTime laterTime) =
        Translation.query ["tagvalues && ARRAY[?,?]"] [Param.str "abc", Param.str "def"] ∧
      buildConditions (twoTagFilter false laterTime laterTime) =
        Translation.query ["tagvalues && ARRAY[?,?]"] [Param.str "def", Param.str "abc"] :=
  ⟨by decide,
    (C9_two_tags_one_overlap_condition laterTime laterTime (by decide) (by decide)).1,
    (C9_two_tags_one_overlap_condition laterTime laterTime (by decide) (by decide)).2.1⟩

/-- C10: at the filter whose `until` is set to 2020-09-13T12:26:40Z, strictly
earlier than the sentinel, and whose `Since` is nil, no abort rule applies and
the call `filter.Since.Before` of line 119 goes through the nil pointer:
`QueryEvents` panics, for every store, before line 123 is reached, so the
condition "created_at < ?" is not emitted and no query is issued. -/
theorem C10_until_bound_lost_when_since_is_nil :
    untilOnlyFilter.Until = some (time.Unix 1600000000 0) ∧
      (time.Unix 1600000000 0).Before aLongTimeAgo = true ∧
      abortRule untilOnlyFilter = false ∧
      sinceCondition untilOnlyFilter ([], []) = none ∧
      buildConditions untilOnlyFilter = Translation.panicked ∧
      ∀ b : BasicRelay, (QueryEvents b (some untilOnlyFilter)).panicked = true ∧
        (QueryEvents b (some untilOnlyFilter)).calls = [] := by
  refine ⟨rfl, by decide, by decide, by decide, by decide, ?_⟩
  intro b
  rw [QueryEvents_of_panic b untilOnlyFilter (by decide)]
  exact ⟨rfl, rfl⟩

theorem fromHexChar_isSome_iff (c : Char) :
    (fromHexChar c).isSome = true ↔ isHexChar c = true := by
  unfold fromHexChar isHexChar
  split
  · simp_all
  · split
    · simp_all
    · split
      · simp_all
      · simp_all

theorem fromHexChar_some (c : Char) (a : Nat) (h : fromHexChar c = some a) :
    a < 16 ∧ hexDigit a = lowerHexChar c := by
  unfold fromHexChar at h
  unfold hexDigit lowerHexChar
  split at h
  · rename_i h1
    have ha : a = c.toNat - 48 := by simpa using h.symm
    subst ha
    have e : 48 + (c.toNat - 48) = c.toNat := by omega
    refine ⟨by omega, ?_⟩
    rw [if_pos (by omega), if_neg (by omega), e, Char.ofNat_toNat]
  · split at h
    · rename_i h1 h2
      have ha : a = c.toNat - 87 := by simpa using h.symm
      subst ha
      have e : 87 + (c.toNat - 87) = c.toNat := by omega
      refine ⟨by omega, ?_⟩
      rw [if_neg (by omega), if_neg (by omega), e, Char.ofNat_toNat]
    · split at h
      · rename_i h1 h2 h3
        have ha : a = c.toNat - 55 := by simpa using h.symm
        subst ha
        have e : 87 + (c.toNat - 55) = c.toNat + 32 := by omega
        refine ⟨by omega, ?_⟩
        rw [if_neg (by omega), if_pos h3, e]
      · exact absurd h (by simp)

theorem Decode_spec (l : List Char) :
    ((Decode l).2 = none ↔ (l.length % 2 = 0 ∧ ∀ c ∈ l, isHexChar c = true)) ∧
      ((Decode l).2 = none → (Decode l).1.length * 2 = l.length ∧
        ((Decode l).1.flatMap fun b => [hexDigit (b / 16), hexDigit (b % 16)]) =
          l.map lowerHexChar) := by
  induction l using Decode.induct with
  | case1 => simp [Decode]
  | case2 p hp =>
    simp [Decode, hp]
  | case3 p x hp =>
    simp [Decode, hp]
  | case4 p q rest hp =>
    have hn : isHexChar p ≠ true := by
      intro h; rw [← fromHexChar_isSome_iff, hp] at h; simp at h
    simp [Decode, hp, hn]
  | case5 p q rest a hp hq =>
    have hn : isHexChar q ≠ true := by
      intro h; rw [← fromHexChar_isSome_iff, hq] at h; simp at h
    simp only [Decode, hp, hq]
    simp only [reduceCtorEq, List.mem_cons, forall_eq_or_imp, false_iff, not_and, false_imp_iff,
      and_true]
    intro _ _ h
    exact absurd h hn
  | case6 p q rest a hp b hq ih =>
    have h1 : isHexChar p = true := by rw [← fromHexChar_isSome_iff, hp]; rfl
    have h2 : isHexChar q = true := by rw [← fromHexChar_isSome_iff, hq]; rfl
    obtain ⟨ha, hda⟩ := fromHexChar_some p a hp
    obtain ⟨hb, hdb⟩ := fromHexChar_some q b hq
    have e1 : (a * 16 + b) / 16 = a := by omega
    have e2 : (a * 16 + b) % 16 = b := by omega
    simp only [Decode, hp, hq, List.length_cons, List.mem_cons, forall_eq_or_imp, h1, h2,
      true_and, List.flatMap_cons, List.map_cons, e1, e2, hda, hdb, List.cons_append,
      List.nil_append, List.cons.injEq]
    constructor
    · rw [ih.1]
      constructor
      · rintro ⟨h, h'⟩; exact ⟨by omega, h'⟩
      · rintro ⟨h, h'⟩; exact ⟨by omega, h'⟩
    · intro h
      obtain ⟨h3, h4⟩ := ih.2 h
      exact ⟨by omega, h4⟩

theorem toNat_ofNat_or (n : Nat) : (Char.ofNat n).toNat = n ∨ (Char.ofNat n).toNat = 0 := by
  unfold Char.ofNat
  split
  · left; rfl
  · right; rfl

theorem toNat_ofNat_of_lt (n : Nat) (h : n < 55296) : (Char.ofNat n).toNat = n := by
  unfold Char.ofNat
  rw [dif_pos (Or.inl h)]
  rfl

theorem isLowerHexChar_lowerHexChar (c : Char) (h : isHexChar c = true) :
    isLowerHexChar (lowerHexChar c) = true := by
  unfold isHexChar at h
  unfold isLowerHexChar lowerHexChar
  simp only [Bool.or_eq_true, Bool.and_eq_true, decide_eq_true_eq] at h ⊢
  split
  · rename_i hc
    rw [toNat_ofNat_of_lt _ (by omega)]
    omega
  · omega

theorem validHex32_iff (s : String) :
    validHex32 s = true ↔ (s.data.length = 64 ∧ ∀ c ∈ s.data, isHexChar c = true) := by
  have hd := Decode_spec s.data
  unfold validHex32 DecodeString
  simp only [Bool.and_eq_true, decide_eq_true_eq]
  constructor
  · rintro ⟨h1, h2⟩
    have h3 := (hd.2 h1).1
    exact ⟨by omega, (hd.1.1 h1).2⟩
  · rintro ⟨h1, h2⟩
    have h3 : (Decode s.data).2 = none := hd.1.2 ⟨by omega, h2⟩
    have h4 := (hd.2 h3).1
    exact ⟨h3, by omega⟩

theorem hexEncode_of_valid (s : String) (h : validHex32 s = true) :
    hexEncode (DecodeString s).1 = String.mk (s.data.map lowerHexChar) := by
  have hd := Decode_spec s.data
  unfold validHex32 DecodeString at h
  simp only [Bool.and_eq_true, decide_eq_true_eq] at h
  unfold hexEncode DecodeString
  rw [(hd.2 h.1).2]

theorem quoteValid_eq_filter_map (xs : List String) :
    quoteValid xs = (xs.filter fun x => validHex32 x).map quoteHex := by
  induction xs with
  | nil => rfl
  | cons x rest ih =>
    by_cases hv : validHex32 x = true
    · have h := hv
      simp only [validHex32, Bool.and_eq_true, decide_eq_true_eq] at h
      simp [quoteValid, hv, h.1, h.2, ih, quoteHex]
    · have h : (DecodeString x).2 ≠ none ∨ (DecodeString x).1.length ≠ 32 := by
        by_contra hc
        push_neg at hc
        exact hv (by simp [validHex32, hc.1, hc.2])
      simp only [quoteValid, if_pos h, ih, List.filter_cons, hv, Bool.false_eq_true, if_false]

/-- C11: for a filter that is not aborted, a candidate is kept exactly when it
decodes to 32 bytes, that is when it consists of exactly 64 hexadecimal digits
in either letter case; the ids condition, which comes first, is "id IN ("
followed by the kept candidates in their order, each re-encoded and quoted,
separated by commas, followed by ")", and the authors condition is the same
with "pubkey IN (" right after the ids condition; every re-encoded candidate
is the candidate in lowercase: 64 characters, all 0-9 or a-f. -/
theorem C11_hex_candidates_reencoded (f : Filter) (conditions : List String)
    (params : List Param) (h : buildConditions f = Translation.query conditions params) :
    (∀ s, validHex32 s = true ↔ (s.data.length = 64 ∧ ∀ c ∈ s.data, isHexChar c = true)) ∧
      (∀ ids, f.IDs = some ids →
        quoteValid ids = (ids.filter fun s => validHex32 s).map quoteHex ∧
        ∃ rest, conditions =
          ("id IN (" ++ Join ((ids.filter fun s => validHex32 s).map quoteHex) "," ++ ")") ::
            rest) ∧
      (∀ authors, f.Authors = some authors →
        quoteValid authors = (authors.filter fun s => validHex32 s).map quoteHex ∧
        ∃ rest, conditions = idsPart f ++
          ("pubkey IN (" ++ Join ((authors.filter fun s => validHex32 s).map quoteHex) "," ++
            ")") :: rest) ∧
      (∀ s, validHex32 s = true →
        quoteHex s = "\x27" ++ String.mk (s.data.map lowerHexChar) ++ "\x27" ∧
          (s.data.map lowerHexChar).length = 64 ∧
          ∀ c ∈ s.data.map lowerHexChar, isLowerHexChar c = true) := by
  have hn := buildConditions_query_form f _ _ h
  obtain ⟨hc, -⟩ := hn
  refine ⟨validHex32_iff, ?_, ?_, ?_⟩
  · intro ids hi
    refine ⟨quoteValid_eq_filter_map ids, ?_⟩
    rw [hc]
    simp only [idsPart, hi, quoteValid_eq_filter_map, List.append_assoc, List.singleton_append]
    exact ⟨_, rfl⟩
  · intro authors hi
    refine ⟨quoteValid_eq_filter_map authors, ?_⟩
    rw [hc]
    simp only [authorsPart, hi, quoteValid_eq_filter_map, List.append_assoc,
      List.singleton_append]
    exact ⟨_, rfl⟩
  · intro s hs
    have hv := (validHex32_iff s).1 hs
    refine ⟨by rw [quoteHex, hexEncode_of_valid s hs], by simpa using hv.1, ?_⟩
    intro c hc
    simp only [List.mem_map] at hc
    obtain ⟨d, hd, rfl⟩ := hc
    exact isLowerHexChar_lowerHexChar d (hv.2 d hd)

/-- C11, at a filter with one valid id of mixed case and one invalid id. -/
theorem C11_hex_candidates_reencoded_witness :
    buildConditions hexIdFilter =
        Translation.query
          ["id IN (\x2700112233445566778899aabbccddeeff00112233445566778899aabbccddeeff\x27)"]
          [] ∧
      ∀ ids, hexIdFilter.IDs = some ids →
        quoteValid ids = (ids.filter fun s => validHex32 s).map quoteHex ∧
        ∃ rest, ["id IN (\x2700112233445566778899aabbccddeeff00112233445566778899aabbccddeeff\x27)"] =
          ("id IN (" ++ Join ((ids.filter fun s => validHex32 s).map quoteHex) "," ++ ")") ::
            rest :=
  ⟨by decide,
    (C11_hex_candidates_reencoded hexIdFilter
      ["id IN (\x2700112233445566778899aabbccddeeff00112233445566778899aabbccddeeff\x27)"] []
      (by decide)).2.1⟩

theorem tagShape_flatten_length (t1 t2 : List (String × List String))
    (h : tagShape t1 = tagShape t2) :
    (flattenTags t1).length = (flattenTags t2).length := by
  induction t1 generalizing t2 with
  | nil =>
    cases t2 with
    | nil => rfl
    | cons e rest => simp [tagShape] at h
  | cons e rest ih =>
    cases t2 with
    | nil => simp [tagShape] at h
    | cons e2 rest2 =>
      simp only [tagShape, List.map_cons, List.cons.injEq, Prod.mk.injEq] at h
      simp only [flattenTags_cons, List.length_append, h.1.2, ih rest2 h.2]

theorem tagShape_any_empty (t1 t2 : List (String × List String))
    (h : tagShape t1 = tagShape t2) :
    (t1.any fun entry => decide (entry.2.length = 0)) =
      (t2.any fun entry => decide (entry.2.length = 0)) := by
  induction t1 generalizing t2 with
  | nil =>
    cases t2 with
    | nil => rfl
    | cons e rest => simp [tagShape] at h
  | cons e rest ih =>
    cases t2 with
    | nil => simp [tagShape] at h
    | cons e2 rest2 =>
      simp only [tagShape, List.map_cons, List.cons.injEq, Prod.mk.injEq] at h
      simp only [List.any_cons, h.1.2, ih rest2 h.2]

theorem parts_congr (f g : Filter) (hi : f.IDs = g.IDs) (ha : f.Authors = g.Authors)
    (hk : f.Kinds = g.Kinds) (hs : f.Since = g.Since) (hu : f.Until = g.Until)
    (hl : (flattenTags f.Tags).length = (flattenTags g.Tags).length) :
    idsPart f = idsPart g ∧ authorsPart f = authorsPart g ∧ kindsPart f = kindsPart g ∧
      tagPart f = tagPart g ∧ sincePart f = sincePart g ∧ untilPart f = untilPart g := by
  have ht : ((flattenTags f.Tags).map fun _ => "?") = ((flattenTags g.Tags).map fun _ => "?") := by
    rw [List.map_const', List.map_const', hl]
  refine ⟨?_, ?_, ?_, ?_, ?_, ?_⟩
  · simp only [idsPart, hi]
  · simp only [authorsPart, ha]
  · simp only [kindsPart, hk]
  · simp only [tagPart, hl, ht]
  · simp only [sincePart, hs]
  · simp only [untilPart, hu]

theorem time_params_are_int (f : Filter) (p : Param)
    (hp : p ∈ (sincePart f).2 ++ (untilPart f).2) : ∃ n, p = Param.int n := by
  rcases List.mem_append.1 hp with hp | hp
  · unfold sincePart at hp
    split at hp
    · simp at hp
    · split at hp
      · exact ⟨_, by simpa using hp⟩
      · simp at hp
  · unfold untilPart at hp
    split at hp
    · simp at hp
    · split at hp
      · exact ⟨_, by simpa using hp⟩
      · simp at hp

/-- C12: when two filters differ only in the contents of their tag value
strings (same names, same number of values per name, everything else equal)
and the first is not aborted, the second is not aborted either, the conditions
and the query text are identical, and each parameter list is the filter's own
flattened tag values, one parameter per value, followed by the same integer
time parameters. -/
theorem C12_tag_values_only_in_parameters (b : BasicRelay) (f g : Filter)
    (conditions : List String) (params : List Param)
    (h : buildConditions f = Translation.query conditions params)
    (hi : f.IDs = g.IDs) (ha : f.Authors = g.Authors) (hk : f.Kinds = g.Kinds)
    (hs : f.Since = g.Since) (hu : f.Until = g.Until)
    (ht : tagShape f.Tags = tagShape g.Tags) :
    ∃ timeParams,
      params = (flattenTags f.Tags).map Param.str ++ timeParams ∧
      buildConditions g =
        Translation.query conditions ((flattenTags g.Tags).map Param.str ++ timeParams) ∧
      (QueryEvents b (some f)).calls = [⟨b.DB.Rebind (queryText conditions), params⟩] ∧
      (QueryEvents b (some g)).calls =
        [⟨b.DB.Rebind (queryText conditions),
          (flattenTags g.Tags).map Param.str ++ timeParams⟩] ∧
      (∀ p ∈ timeParams, ∃ n, p = Param.int n) ∧
      params.length = (flattenTags f.Tags).length + timeParams.length := by
  have hl := tagShape_flatten_length _ _ ht
  have hany := tagShape_any_empty _ _ ht
  obtain ⟨hf, hfs, hfu⟩ := buildConditions_query_inv f _ _ h
  have hg : abortRule g = false := by
    rw [← hf]
    simp only [abortRule, tagsAbort, hi, ha, hk, hl, hany]
  have nf := buildConditions_query_form f _ _ h
  have ng := buildConditions_eq_query g hg (hs ▸ hfs) (hu ▸ hfu)
  obtain ⟨e1, e2, e3, e4, e5, e6⟩ := parts_congr f g hi ha hk hs hu hl
  have hgb : buildConditions g =
      Translation.query conditions ((flattenTags g.Tags).map Param.str ++
        ((sincePart f).2 ++ (untilPart f).2)) := by
    rw [ng, nf.1, e1, e2, e3, e4, e5, e6, List.append_assoc _ (sincePart g).2]
  refine ⟨(sincePart f).2 ++ (untilPart f).2, ?_, hgb, ?_, ?_, time_params_are_int f, ?_⟩
  · rw [nf.2, List.append_assoc]
  · simp only [QueryEvents, h, execute_calls]
  · simp only [QueryEvents, hgb, execute_calls]
  · rw [nf.2]; simp [Nat.add_assoc]

/-- C12, at the two-tag filter and a filter with the same tag names and
hostile tag values. -/
theorem C12_tag_values_only_in_parameters_witness :
    ∃ timeParams,
      [Param.str "abc", Param.str "def"] =
          (flattenTags (twoTagFilter true laterTime laterTime).Tags).map Param.str ++
            timeParams ∧
      buildConditions hostileTagFilter =
        Translation.query ["tagvalues && ARRAY[?,?]"]
          ((flattenTags hostileTagFilter.Tags).map Param.str ++ timeParams) ∧
      (QueryEvents emptyStore (some (twoTagFilter true laterTime laterTime))).calls =
        [⟨emptyStore.DB.Rebind (queryText ["tagvalues && ARRAY[?,?]"]),
          [Param.str "abc", Param.str "def"]⟩] ∧
      (QueryEvents emptyStore (some hostileTagFilter)).calls =
        [⟨emptyStore.DB.Rebind (queryText ["tagvalues && ARRAY[?,?]"]),
          (flattenTags hostileTagFilter.Tags).map Param.str ++ timeParams⟩] ∧
      (∀ p ∈ timeParams, ∃ n, p = Param.int n) ∧
      [Param.str "abc", Param.str "def"].length =
        (flattenTags (twoTagFilter true laterTime laterTime).Tags).length +
          timeParams.length :=
  C12_tag_values_only_in_parameters emptyStore (twoTagFilter true laterTime laterTime)
    hostileTagFilter ["tagvalues && ARRAY[?,?]"] [Param.str "abc", Param.str "def"]
    (by decide) rfl rfl rfl rfl rfl (by decide)

set_option maxRecDepth 8000

theorem parts_length_le_one (f : Filter) :
    (idsPart f).length ≤ 1 ∧ (authorsPart f).length ≤ 1 ∧ (kindsPart f).length ≤ 1 ∧
      (tagPart f).length ≤ 1 ∧ (sincePart f).1.length ≤ 1 ∧ (untilPart f).1.length ≤ 1 := by
  refine ⟨?_, ?_, ?_, ?_, ?_, ?_⟩
  · unfold idsPart; split <;> simp
  · unfold authorsPart; split <;> simp
  · unfold kindsPart; split <;> simp
  · unfold tagPart; split <;> simp
  · unfold sincePart
    split
    · simp
    · split <;> simp
  · unfold untilPart
    split
    · simp
    · split <;> simp

theorem parts_eq_nil_iff (f : Filter) :
    (idsPart f = [] ↔ f.IDs = none) ∧ (authorsPart f = [] ↔ f.Authors = none) ∧
      (kindsPart f = [] ↔ f.Kinds = none) ∧ (tagPart f = [] ↔ flattenTags f.Tags = []) := by
  refine ⟨?_, ?_, ?_, ?_⟩
  · unfold idsPart; cases f.IDs <;> simp
  · unfold authorsPart; cases f.Authors <;> simp
  · unfold kindsPart; cases f.Kinds <;> simp
  · unfold tagPart
    cases h : flattenTags f.Tags <;> simp

theorem time_parts_of_set (f : Filter) (since untilTime : Time) (hs : f.Since = some since)
    (hu : f.Until = some untilTime) :
    sincePart f =
        (if since.Before aLongTimeAgo = true then (["created_at > ?"], [Param.int since.Unix])
          else ([], [])) ∧
      untilPart f =
        (if untilTime.Before aLongTimeAgo = true then
          (["created_at < ?"], [Param.int untilTime.Unix]) else ([], [])) := by
  unfold sincePart untilPart
  rw [hs, hu]
  exact ⟨rfl, rfl⟩

theorem intercalate_go_eq (sep : String) (l : List String) :
    ∀ acc : String, String.intercalate.go acc sep l =
      match l with
      | [] => acc
      | b :: rest => acc ++ sep ++ Join (b :: rest) sep := by
  induction l with
  | nil => intro acc; rfl
  | cons b rest ih =>
    intro acc
    rw [String.intercalate.go, ih]
    cases rest with
    | nil => rfl
    | cons c r => simp only [Join, String.append_assoc]

theorem Join_eq_intercalate (l : List String) (sep : String) :
    Join l sep = sep.intercalate l := by
  cases l with
  | nil => rfl
  | cons a rest =>
    rw [String.intercalate, intercalate_go_eq]
    cases rest with
    | nil => rfl
    | cons b r => rfl

theorem withFallback_of_ne_nil (conditions : List String) (h : conditions ≠ []) :
    withFallback conditions = conditions := by
  unfold withFallback
  rw [if_neg]
  simpa using h

/-- C13: for a filter that is not aborted, so that a query is generated, the
conditions are, in this order, the condition of ids, of authors, of kinds, of
the tags, of since and of until, each at most once and exactly those whose
criterion is present (for since and until: set and earlier than the sentinel);
the parameter list is the tag values, then the Unix seconds of since, then the
Unix seconds of until, for the bounds that are emitted; the text given to the
storage collaborator is the fixed head, these conditions joined by " AND "
(the single "true" when there is none) and the fixed suffix, and it is given
with this parameter list. A query is generated for every filter to which no
abort rule applies and whose since and until are both set. -/
theorem C13_conditions_joined_in_fixed_order (b : BasicRelay) (f : Filter)
    (conditions : List String) (params : List Param)
    (h : buildConditions f = Translation.query conditions params) :
    conditions = idsPart f ++ authorsPart f ++ kindsPart f ++ tagPart f ++ (sincePart f).1 ++
        (untilPart f).1 ∧
      params = (flattenTags f.Tags).map Param.str ++ (sincePart f).2 ++ (untilPart f).2 ∧
      ((idsPart f).length ≤ 1 ∧ (authorsPart f).length ≤ 1 ∧ (kindsPart f).length ≤ 1 ∧
        (tagPart f).length ≤ 1 ∧ (sincePart f).1.length ≤ 1 ∧ (untilPart f).1.length ≤ 1) ∧
      ((idsPart f = [] ↔ f.IDs = none) ∧ (authorsPart f = [] ↔ f.Authors = none) ∧
        (kindsPart f = [] ↔ f.Kinds = none) ∧ (tagPart f = [] ↔ flattenTags f.Tags = [])) ∧
      (∃ since untilTime, f.Since = some since ∧ f.Until = some untilTime ∧
        sincePart f =
          (if since.Before aLongTimeAgo = true then
            (["created_at > ?"], [Param.int since.Unix]) else ([], [])) ∧
        untilPart f =
          (if untilTime.Before aLongTimeAgo = true then
            (["created_at < ?"], [Param.int untilTime.Unix]) else ([], []))) ∧
      (QueryEvents b (some f)).calls =
        [⟨b.DB.Rebind
            ("SELECT\n      id, pubkey, created_at, kind, tags, content, sig\n    FROM event WHERE " ++
              (if conditions = [] then "true" else " AND ".intercalate conditions) ++
              " ORDER BY created_at LIMIT 100"),
          params⟩] ∧
      (∀ g : Filter, abortRule g = false → g.Since ≠ none → g.Until ≠ none →
        ∃ c p, buildConditions g = Translation.query c p) := by
  have hn := buildConditions_query_form f _ _ h
  obtain ⟨-, hs, hu⟩ := buildConditions_query_inv f _ _ h
  refine ⟨hn.1, hn.2, parts_length_le_one f, parts_eq_nil_iff f, ?_, ?_,
    fun g hg hgs hgu => ⟨_, _, buildConditions_eq_query g hg hgs hgu⟩⟩
  · cases hfs : f.Since with
    | none => exact absurd hfs hs
    | some since =>
      cases hfu : f.Until with
      | none => exact absurd hfu hu
      | some untilTime =>
        exact ⟨since, untilTime, rfl, rfl, time_parts_of_set f since untilTime hfs hfu⟩
  · simp only [QueryEvents, h, execute_calls, queryText, wherePredicate]
    by_cases hc : conditions = []
    · subst hc
      rfl
    · rw [withFallback_of_ne_nil _ hc, Join_eq_intercalate, if_neg hc]

/-- C13, at a filter with all six criteria present. -/
theorem C13_conditions_joined_in_fixed_order_witness :
    buildConditions fullFilter =
        Translation.query
          ["id IN (\x2700112233445566778899aabbccddeeff00112233445566778899aabbccddeeff\x27)",
            "pubkey IN (\x27ffeeddccbbaa99887766554433221100ffeeddccbbaa99887766554433221100\x27)",
            "kind IN (1,7)", "tagvalues && ARRAY[?]", "created_at > ?", "created_at < ?"]
          [Param.str "abc", Param.int 1600000000, Param.int 1630000000] ∧
      (QueryEvents emptyStore (some fullFilter)).calls =
        [⟨"SELECT\n      id, pubkey, created_at, kind, tags, content, sig\n    FROM event WHERE id IN (\x2700112233445566778899aabbccddeeff00112233445566778899aabbccddeeff\x27) AND pubkey IN (\x27ffeeddccbbaa99887766554433221100ffeeddccbbaa99887766554433221100\x27) AND kind IN (1,7) AND tagvalues && ARRAY[?] AND created_at > ? AND created_at < ? ORDER BY created_at LIMIT 100",
          [Param.str "abc", Param.int 1600000000, Param.int 1630000000]⟩] ∧
      [Param.str "abc", Param.int 1600000000, Param.int 1630000000] =
        (flattenTags fullFilter.Tags).map Param.str ++ (sincePart fullFilter).2 ++
          (untilPart fullFilter).2 :=
  ⟨by decide, by decide,
    (C13_conditions_joined_in_fixed_order emptyStore fullFilter
      ["id IN (\x2700112233445566778899aabbccddeeff00112233445566778899aabbccddeeff\x27)",
        "pubkey IN (\x27ffeeddccbbaa99887766554433221100ffeeddccbbaa99887766554433221100\x27)",
        "kind IN (1,7)", "tagvalues && ARRAY[?]", "created_at > ?", "created_at < ?"]
      [Param.str "abc", Param.int 1600000000, Param.int 1630000000] (by decide)).2.1⟩

/-- C14: every query text given to the storage collaborator is, before the
placeholder rewriting, the fixed head selecting id, pubkey, created_at, kind,
tags, content, sig from event, then the predicate of the filter, then exactly
" ORDER BY created_at LIMIT 100"; the head, with its line breaks and
indentation read as single blanks, is
"SELECT id, pubkey, created_at, kind, tags, content, sig FROM event WHERE ". -/
theorem C14_query_text_head_and_suffix (b : BasicRelay) (filter : Option Filter) (call : Call)
    (h : call ∈ (QueryEvents b filter).calls) :
    (∃ f conditions params, filter = some f ∧
      buildConditions f = Translation.query conditions params ∧
      call.query = b.DB.Rebind
        ("SELECT\n      id, pubkey, created_at, kind, tags, content, sig\n    FROM event WHERE " ++
          wherePredicate conditions ++ " ORDER BY created_at LIMIT 100")) ∧
      String.mk (squeezeBlanks
          "SELECT\n      id, pubkey, created_at, kind, tags, content, sig\n    FROM event WHERE ".data) =
        "SELECT id, pubkey, created_at, kind, tags, content, sig FROM event WHERE " := by
  refine ⟨?_, by decide⟩
  cases filter with
  | none => simp [QueryEvents] at h
  | some f =>
    cases hb : buildConditions f with
    | aborted => simp [QueryEvents, hb] at h
    | panicked => simp [QueryEvents, hb] at h
    | query conditions params =>
      simp only [QueryEvents, hb, execute_calls, List.mem_singleton] at h
      refine ⟨f, conditions, params, rfl, hb, ?_⟩
      rw [h]
      rfl

/-- C14, at the call issued for the filter with every criterion present. -/
theorem C14_query_text_head_and_suffix_witness :
    (∃ f conditions params, some fullFilter = some f ∧
      buildConditions f = Translation.query conditions params ∧
      (⟨queryText
          ["id IN (\x2700112233445566778899aabbccddeeff00112233445566778899aabbccddeeff\x27)",
            "pubkey IN (\x27ffeeddccbbaa99887766554433221100ffeeddccbbaa99887766554433221100\x27)",
            "kind IN (1,7)", "tagvalues && ARRAY[?]", "created_at > ?", "created_at < ?"],
          [Param.str "abc", Param.int 1600000000, Param.int 1630000000]⟩ : Call).query =
        emptyStore.DB.Rebind
          ("SELECT\n      id, pubkey, created_at, kind, tags, content, sig\n    FROM event WHERE " ++
            wherePredicate conditions ++ " ORDER BY created_at LIMIT 100")) ∧
      String.mk (squeezeBlanks
          "SELECT\n      id, pubkey, created_at, kind, tags, content, sig\n    FROM event WHERE ".data) =
        "SELECT id, pubkey, created_at, kind, tags, content, sig FROM event WHERE " :=
  C14_query_text_head_and_suffix emptyStore (some fullFilter) _ (by decide)

theorem candidatesAbort_eq_false_iff (c : Option (List String)) :
    candidatesAbort c = false ↔
      ∀ xs, c = some xs → xs.length ≤ 500 ∧ ∃ x ∈ xs, validHex32 x = true := by
  cases c with
  | none => simp [candidatesAbort]
  | some xs =>
    simp only [candidatesAbort, Bool.or_eq_false_iff, decide_eq_false_iff_not, Nat.not_lt,
      Option.some.injEq, forall_eq']
    constructor
    · rintro ⟨h1, h2⟩
      refine ⟨h1, ?_⟩
      by_contra hc
      push_neg at hc
      have : (xs.all fun x => !validHex32 x) = true := by
        simp only [List.all_eq_true, Bool.not_eq_true']
        intro x hx
        have := hc x hx
        simpa using this
      rw [this] at h2
      exact absurd h2 (by simp)
    · rintro ⟨h1, x, hx, hv⟩
      refine ⟨h1, ?_⟩
      cases hall : (xs.all fun x => !validHex32 x) with
      | false => rfl
      | true =>
        simp only [List.all_eq_true, Bool.not_eq_true'] at hall
        rw [hall x hx] at hv
        exact absurd hv (by simp)

theorem kindsAbort_eq_false_iff (c : Option (List Int)) :
    kindsAbort c = false ↔ ∀ ks, c = some ks → 1 ≤ ks.length ∧ ks.length ≤ 10 := by
  cases c with
  | none => simp [kindsAbort]
  | some ks =>
    simp only [kindsAbort, Bool.or_eq_false_iff, decide_eq_false_iff_not, Nat.not_lt,
      Option.some.injEq, forall_eq']
    omega

theorem tagsAbort_eq_false_iff (tags : List (String × List String)) :
    tagsAbort tags = false ↔
      (∀ entry ∈ tags, entry.2 ≠ []) ∧ (flattenTags tags).length ≤ 10 := by
  simp only [tagsAbort, Bool.or_eq_false_iff, decide_eq_false_iff_not, Nat.not_lt,
    List.any_eq_false, decide_eq_true_eq, List.length_eq_zero]

theorem abortRule_eq_false_iff (f : Filter) :
    abortRule f = false ↔
      (∀ ids, f.IDs = some ids → ids.length ≤ 500 ∧ ∃ id ∈ ids, validHex32 id = true) ∧
      (∀ authors, f.Authors = some authors →
        authors.length ≤ 500 ∧ ∃ key ∈ authors, validHex32 key = true) ∧
      (∀ kinds, f.Kinds = some kinds → 1 ≤ kinds.length ∧ kinds.length ≤ 10) ∧
      (∀ entry ∈ f.Tags, entry.2 ≠ []) ∧ (flattenTags f.Tags).length ≤ 10 := by
  simp only [abortRule, Bool.or_eq_false_iff, candidatesAbort_eq_false_iff,
    kindsAbort_eq_false_iff, tagsAbort_eq_false_iff, and_assoc]

theorem QueryEvents_calls_length (b : BasicRelay) (f : Filter) :
    (QueryEvents b (some f)).calls.length =
      if abortRule f = false ∧ f.Since ≠ none ∧ f.Until ≠ none then 1 else 0 := by
  cases h : abortRule f with
  | true => rw [QueryEvents_of_abort b f h]; simp
  | false =>
    by_cases hsu : f.Since ≠ none ∧ f.Until ≠ none
    · have hn := buildConditions_eq_query f h hsu.1 hsu.2
      simp only [QueryEvents, hn, execute_calls]
      simp [hsu]
    · have hp : buildConditions f = Translation.panicked := by
        rw [buildConditions_eq_panicked_iff]
        refine ⟨h, ?_⟩
        by_contra hc
        push_neg at hc
        exact hsu hc
      rw [QueryEvents_of_panic b f hp]
      simp only [true_and, hsu, if_false, List.length_nil]

/-- C16: the zero filter is non-nil and no abort rule applies to it (ids,
authors and kinds are absent, there is no tag entry), yet `QueryEvents` issues
no storage call for it: it panics at line 119, for every store. The storage
collaborator is called at most once for every store and every filter, and
exactly once if and only if the filter is non-nil, no abort rule applies and
`Since` and `Until` are both set. -/
theorem C16_no_storage_call_for_zero_filter :
    ((∀ ids, zeroFilter.IDs = some ids →
        ids.length ≤ 500 ∧ ∃ id ∈ ids, validHex32 id = true) ∧
      (∀ authors, zeroFilter.Authors = some authors →
        authors.length ≤ 500 ∧ ∃ key ∈ authors, validHex32 key = true) ∧
      (∀ kinds, zeroFilter.Kinds = some kinds → 1 ≤ kinds.length ∧ kinds.length ≤ 10) ∧
      (∀ entry ∈ zeroFilter.Tags, entry.2 ≠ []) ∧ (flattenTags zeroFilter.Tags).length ≤ 10) ∧
      (∀ b : BasicRelay, (QueryEvents b (some zeroFilter)).calls.length = 0 ∧
        (QueryEvents b (some zeroFilter)).panicked = true) ∧
      (∀ (b : BasicRelay) (filter : Option Filter), (QueryEvents b filter).calls.length ≤ 1) ∧
      (∀ (b : BasicRelay) (filter : Option Filter),
        (QueryEvents b filter).calls.length = 1 ↔
          ∃ f, filter = some f ∧
            (∀ ids, f.IDs = some ids → ids.length ≤ 500 ∧ ∃ id ∈ ids, validHex32 id = true) ∧
            (∀ authors, f.Authors = some authors →
              authors.length ≤ 500 ∧ ∃ key ∈ authors, validHex32 key = true) ∧
            (∀ kinds, f.Kinds = some kinds → 1 ≤ kinds.length ∧ kinds.length ≤ 10) ∧
            (∀ entry ∈ f.Tags, entry.2 ≠ []) ∧ (flattenTags f.Tags).length ≤ 10 ∧
            f.Since ≠ none ∧ f.Until ≠ none) := by
  refine ⟨(abortRule_eq_false_iff zeroFilter).1 (by decide), ?_, ?_, ?_⟩
  · intro b
    rw [QueryEvents_of_panic b zeroFilter (by decide)]
    exact ⟨rfl, rfl⟩
  · intro b filter
    cases filter with
    | none => simp [QueryEvents]
    | some f =>
      rw [QueryEvents_calls_length]
      split <;> simp
  · intro b filter
    cases filter with
    | none => simp [QueryEvents]
    | some f =>
      rw [QueryEvents_calls_length]
      simp only [Option.some.injEq, exists_eq_left']
      have hiff := abortRule_eq_false_iff f
      constructor
      · intro h
        split at h
        · rename_i hc
          obtain ⟨h1, h2, h3, h4, h5⟩ := hiff.1 hc.1
          exact ⟨h1, h2, h3, h4, h5, hc.2.1, hc.2.2⟩
        · exact absurd h (by simp)
      · rintro ⟨h1, h2, h3, h4, h5, h6, h7⟩
        rw [if_pos ⟨hiff.2 ⟨h1, h2, h3, h4, h5⟩, h6, h7⟩]

theorem perm_any_empty (t1 t2 : List (String × List String)) (hp : t1.Perm t2) :
    (t1.any fun entry => decide (entry.2.length = 0)) =
      (t2.any fun entry => decide (entry.2.length = 0)) := by
  rw [Bool.eq_iff_iff]
  simp only [List.any_eq_true, decide_eq_true_eq]
  constructor
  · rintro ⟨e, he, h⟩; exact ⟨e, hp.mem_iff.1 he, h⟩
  · rintro ⟨e, he, h⟩; exact ⟨e, hp.mem_iff.2 he, h⟩

theorem perm_flattenTags (t1 t2 : List (String × List String)) (hp : t1.Perm t2) :
    (flattenTags t1).Perm (flattenTags t2) :=
  List.Perm.flatMap_right _ hp

theorem perm_tagsAbort (t1 t2 : List (String × List String)) (hp : t1.Perm t2) :
    tagsAbort t1 = tagsAbort t2 := by
  simp only [tagsAbort, perm_any_empty t1 t2 hp, (perm_flattenTags t1 t2 hp).length_eq]

theorem tagLoop_eq_none_iff_tagsAbort (tags : List (String × List String)) :
    tagLoop tags [] = none ↔ tagsAbort tags = true := by
  have ht := tagLoop_eq_none_iff tags [] (by simp)
  simp only [List.length_nil, Nat.zero_add] at ht
  simp only [ht, tagsAbort, Bool.or_eq_true, decide_eq_true_eq]

theorem buildConditions_of_perm (f g : Filter) (hi : f.IDs = g.IDs)
    (ha : f.Authors = g.Authors) (hk : f.Kinds = g.Kinds) (hs : f.Since = g.Since)
    (hu : f.Until = g.Until) (hp : f.Tags.Perm g.Tags) :
    (buildConditions f = Translation.aborted ∧ buildConditions g = Translation.aborted) ∨
      (buildConditions f = Translation.panicked ∧ buildConditions g = Translation.panicked) ∨
      ∃ conditions timeParams,
        buildConditions f =
            Translation.query conditions
              ((flattenTags f.Tags).map Param.str ++ timeParams) ∧
          buildConditions g =
            Translation.query conditions
              ((flattenTags g.Tags).map Param.str ++ timeParams) ∧
          ∀ p ∈ timeParams, ∃ n, p = Param.int n := by
  have hab : abortRule f = abortRule g := by
    simp only [abortRule, hi, ha, hk, perm_tagsAbort _ _ hp]
  cases hf : abortRule f with
  | true =>
    left
    exact ⟨(buildConditions_eq_aborted_iff f).2 hf,
      (buildConditions_eq_aborted_iff g).2 (hab ▸ hf)⟩
  | false =>
    right
    by_cases hsu : f.Since ≠ none ∧ f.Until ≠ none
    · right
      have hl := (perm_flattenTags _ _ hp).length_eq
      obtain ⟨e1, e2, e3, e4, e5, e6⟩ := parts_congr f g hi ha hk hs hu hl
      refine ⟨idsPart f ++ authorsPart f ++ kindsPart f ++ tagPart f ++ (sincePart f).1 ++
        (untilPart f).1, (sincePart f).2 ++ (untilPart f).2, ?_, ?_, time_params_are_int f⟩
      · rw [buildConditions_eq_query f hf hsu.1 hsu.2, List.append_assoc _ (sincePart f).2]
      · rw [buildConditions_eq_query g (hab ▸ hf) (hs ▸ hsu.1) (hu ▸ hsu.2), e1, e2, e3, e4, e5,
          e6, List.append_assoc _ (sincePart g).2]
    · left
      have hor : f.Since = none ∨ f.Until = none := by
        by_contra hc
        push_neg at hc
        exact hsu hc
      refine ⟨(buildConditions_eq_panicked_iff f).2 ⟨hf, hor⟩,
        (buildConditions_eq_panicked_iff g).2 ⟨hab ▸ hf, ?_⟩⟩
      rw [← hs, ← hu]
      exact hor

/-- C15, as stated, fails: the two enumerations of the mapping with the
entries `e -> [abc]` and `p -> [def]`, all other criteria equal, give the same
conditions but the parameter lists "abc", "def" and "def", "abc". -/
theorem C15_same_mapping_different_parameters :
    buildConditions (twoTagFilter true laterTime laterTime) =
        Translation.query ["tagvalues && ARRAY[?,?]"] [Param.str "abc", Param.str "def"] ∧
      buildConditions (twoTagFilter false laterTime laterTime) =
        Translation.query ["tagvalues && ARRAY[?,?]"] [Param.str "def", Param.str "abc"] ∧
      (twoTagFilter true laterTime laterTime).Tags.Perm
        (twoTagFilter false laterTime laterTime).Tags ∧
      ([Param.str "abc", Param.str "def"] : List Param) ≠ [Param.str "def", Param.str "abc"] :=
  ⟨by decide, by decide, List.Perm.swap _ _ _, by decide⟩

/-- C15, amended: two filters with the same ids, authors, kinds, since and
until whose tag entries are the same up to the order of enumeration are
aborted together; when not aborted they give the same conditions, hence the
same query text in the storage call, and parameter lists that consist of the
tag values in the order of enumeration, a rearrangement of one another,
followed by the same time parameters; with the same order of enumeration the
two translations are identical. -/
theorem C15_determined_up_to_tag_order (b : BasicRelay) (f g : Filter) (hi : f.IDs = g.IDs)
    (ha : f.Authors = g.Authors) (hk : f.Kinds = g.Kinds) (hs : f.Since = g.Since)
    (hu : f.Until = g.Until) (hp : f.Tags.Perm g.Tags) :
    (buildConditions f = Translation.aborted ↔ buildConditions g = Translation.aborted) ∧
      (∀ conditions params, buildConditions f = Translation.query conditions params →
        ∃ timeParams,
          params = (flattenTags f.Tags).map Param.str ++ timeParams ∧
          buildConditions g =
            Translation.query conditions
              ((flattenTags g.Tags).map Param.str ++ timeParams) ∧
          (flattenTags f.Tags).Perm (flattenTags g.Tags) ∧
          params.Perm ((flattenTags g.Tags).map Param.str ++ timeParams)) ∧
      (QueryEvents b (some f)).calls.map Call.query =
        (QueryEvents b (some g)).calls.map Call.query ∧
      (f.Tags = g.Tags → buildConditions f = buildConditions g) := by
  have hfl := perm_flattenTags _ _ hp
  rcases buildConditions_of_perm f g hi ha hk hs hu hp with
    ⟨h1, h2⟩ | ⟨h1, h2⟩ | ⟨c, tp, h1, h2, -⟩
  · refine ⟨by simp [h1, h2], ?_, ?_, ?_⟩
    · intro conditions params h
      rw [h1] at h
      exact absurd h (by simp)
    · simp [QueryEvents, h1, h2]
    · intro _; rw [h1, h2]
  · refine ⟨by simp [h1, h2], ?_, ?_, ?_⟩
    · intro conditions params h
      rw [h1] at h
      exact absurd h (by simp)
    · simp [QueryEvents, h1, h2]
    · intro _; rw [h1, h2]
  · refine ⟨by simp [h1, h2], ?_, ?_, ?_⟩
    · intro conditions params h
      rw [h1] at h
      simp only [Translation.query.injEq] at h
      obtain ⟨rfl, rfl⟩ := h
      exact ⟨tp, rfl, h2, hfl, List.Perm.append_right _ (hfl.map _)⟩
    · simp only [QueryEvents, h1, h2, execute_calls, List.map_cons, List.map_nil]
    · intro ht; rw [h1, h2, ht]

/-- C15 amended, at the two enumerations of the two-tag mapping. -/
theorem C15_determined_up_to_tag_order_witness :
    (buildConditions (twoTagFilter true laterTime laterTime) = Translation.aborted ↔
        buildConditions (twoTagFilter false laterTime laterTime) = Translation.aborted) ∧
      (QueryEvents emptyStore (some (twoTagFilter true laterTime laterTime))).calls.map
          Call.query =
        (QueryEvents emptyStore (some (twoTagFilter false laterTime laterTime))).calls.map
          Call.query :=
  ⟨(C15_determined_up_to_tag_order emptyStore (twoTagFilter true laterTime laterTime)
      (twoTagFilter false laterTime laterTime) rfl rfl rfl rfl rfl (List.Perm.swap _ _ _)).1,
    (C15_determined_up_to_tag_order emptyStore (twoTagFilter true laterTime laterTime)
      (twoTagFilter false laterTime laterTime) rfl rfl rfl rfl rfl
      (List.Perm.swap _ _ _)).2.2.1⟩

/-- C20: for two enumerations of the same tag entries the loop aborts for both
or for neither, and it aborts exactly when some entry is empty or there are
more than 10 values in total; for a filter that is not aborted the conditions,
hence the query text, are the same under both enumerations, and the tag part
of the parameters, which comes first, is the flattened values of each
enumeration: a rearrangement of the same values. -/
theorem C20_tag_order_independent (t1 t2 : List (String × List String))
    (hp : t1.Perm t2) (f : Filter) :
    (tagLoop t1 [] = none ↔ tagLoop t2 [] = none) ∧
      (tagLoop t1 [] = none ↔
        (∃ entry ∈ t1, entry.2 = []) ∨ 10 < (flattenTags t1).length) ∧
      (tagLoop t1 [] ≠ none → tagLoop t1 [] = some (flattenTags t1)) ∧
      (buildConditions { f with Tags := t1 } = Translation.aborted ↔
        buildConditions { f with Tags := t2 } = Translation.aborted) ∧
      (∀ conditions params,
        buildConditions { f with Tags := t1 } = Translation.query conditions params →
        ∃ rest,
          params = (flattenTags t1).map Param.str ++ rest ∧
          buildConditions { f with Tags := t2 } =
            Translation.query conditions ((flattenTags t2).map Param.str ++ rest) ∧
          ((flattenTags t1).map Param.str).Perm ((flattenTags t2).map Param.str)) ∧
      (∀ b : BasicRelay,
        (QueryEvents b (some { f with Tags := t1 })).calls.map Call.query =
          (QueryEvents b (some { f with Tags := t2 })).calls.map Call.query) := by
  have hfl := perm_flattenTags _ _ hp
  refine ⟨?_, ?_, ?_, ?_, ?_, ?_⟩
  · rw [tagLoop_eq_none_iff_tagsAbort, tagLoop_eq_none_iff_tagsAbort, perm_tagsAbort _ _ hp]
  · rw [tagLoop_eq_none_iff_tagsAbort]
    simp only [tagsAbort, Bool.or_eq_true, List.any_eq_true, decide_eq_true_eq,
      List.length_eq_zero]
  · intro h
    cases ht : tagLoop t1 [] with
    | none => exact absurd ht h
    | some out =>
      have := tagLoop_eq_some _ _ _ ht
      simp only [List.nil_append] at this
      rw [this]
  · rcases buildConditions_of_perm { f with Tags := t1 } { f with Tags := t2 } rfl rfl rfl rfl
      rfl hp with ⟨h1, h2⟩ | ⟨h1, h2⟩ | ⟨c, tp, h1, h2, -⟩
    · simp [h1, h2]
    · simp [h1, h2]
    · simp [h1, h2]
  · intro conditions params h
    rcases buildConditions_of_perm { f with Tags := t1 } { f with Tags := t2 } rfl rfl rfl rfl
      rfl hp with ⟨h1, h2⟩ | ⟨h1, h2⟩ | ⟨c, tp, h1, h2, -⟩
    · rw [h1] at h
      exact absurd h (by simp)
    · rw [h1] at h
      exact absurd h (by simp)
    · rw [h1] at h
      simp only [Translation.query.injEq] at h
      obtain ⟨rfl, rfl⟩ := h
      exact ⟨tp, rfl, h2, hfl.map _⟩
  · intro b
    rcases buildConditions_of_perm { f with Tags := t1 } { f with Tags := t2 } rfl rfl rfl rfl
      rfl hp with ⟨h1, h2⟩ | ⟨h1, h2⟩ | ⟨c, tp, h1, h2, -⟩
    · simp [QueryEvents, h1, h2]
    · simp [QueryEvents, h1, h2]
    · simp only [QueryEvents, h1, h2, execute_calls, List.map_cons, List.map_nil]

/-- C20, at the two enumerations of the two-tag mapping. -/
theorem C20_tag_order_independent_witness :
    (tagLoop [("e", ["abc"]), ("p", ["def"])] [] = none ↔
        tagLoop [("p", ["def"]), ("e", ["abc"])] [] = none) ∧
      (tagLoop [("e", ["abc"]), ("p", ["def"])] [] ≠ none →
        tagLoop [("e", ["abc"]), ("p", ["def"])] [] =
          some (flattenTags [("e", ["abc"]), ("p", ["def"])])) :=
  ⟨(C20_tag_order_independent [("e", ["abc"]), ("p", ["def"])] [("p", ["def"]), ("e", ["abc"])]
      (List.Perm.swap _ _ _) laterFilter).1,
    (C20_tag_order_independent [("e", ["abc"]), ("p", ["def"])] [("p", ["def"]), ("e", ["abc"])]
      (List.Perm.swap _ _ _) laterFilter).2.2.1⟩

theorem Join_length_ge (c : String) (rest : List String) (sep : String) :
    c.length ≤ (Join (c :: rest) sep).length := by
  cases rest with
  | nil => simp [Join]
  | cons d rest => simp only [Join, String.length_append]; omega

theorem criteria_length (f : Filter) (c : String)
    (hc : c ∈ idsPart f ++ authorsPart f ++ kindsPart f ++ tagPart f ++ (sincePart f).1 ++
      (untilPart f).1) : 5 ≤ c.length := by
  simp only [List.mem_append] at hc
  rcases hc with ((((hc | hc) | hc) | hc) | hc) | hc
  · unfold idsPart at hc
    split at hc
    · simp at hc
    · simp only [List.mem_singleton] at hc
      subst hc
      simp only [String.length_append]
      have : "id IN (".length = 7 := rfl
      omega
  · unfold authorsPart at hc
    split at hc
    · simp at hc
    · simp only [List.mem_singleton] at hc
      subst hc
      simp only [String.length_append]
      have : "pubkey IN (".length = 11 := rfl
      omega
  · unfold kindsPart at hc
    split at hc
    · simp at hc
    · simp only [List.mem_singleton] at hc
      subst hc
      simp only [String.length_append]
      have : "kind IN (".length = 9 := rfl
      omega
  · unfold tagPart at hc
    split at hc
    · simp only [List.mem_singleton] at hc
      subst hc
      simp only [String.length_append]
      have : "tagvalues && ARRAY[".length = 19 := rfl
      omega
    · simp at hc
  · unfold sincePart at hc
    split at hc
    · simp at hc
    · split at hc
      · simp only [List.mem_singleton] at hc
        subst hc
        decide
      · simp at hc
  · unfold untilPart at hc
    split at hc
    · simp at hc
    · split at hc
      · simp only [List.mem_singleton] at hc
        subst hc
        decide
      · simp at hc

theorem query_fallback_iff (f : Filter) (conditions : List String)
    (params : List Param) (h : buildConditions f = Translation.query conditions params) :
    (wherePredicate conditions = "true" ↔ conditions = []) ∧
      (conditions = [] ↔
        (f.IDs = none ∧ f.Authors = none ∧ f.Kinds = none ∧ flattenTags f.Tags = [] ∧
          ∃ since untilTime, f.Since = some since ∧ f.Until = some untilTime ∧
            since.Before aLongTimeAgo = false ∧ untilTime.Before aLongTimeAgo = false)) ∧
      (conditions = [] → params = []) ∧
      wherePredicate conditions ≠ "" := by
  obtain ⟨hc, hp⟩ := buildConditions_query_form f _ _ h
  obtain ⟨-, hs, hu⟩ := buildConditions_query_inv f _ _ h
  have hlen : ∀ c ∈ conditions, 5 ≤ c.length := by
    intro c hm
    rw [hc] at hm
    exact criteria_length f c hm
  have hnil := parts_eq_nil_iff f
  cases hfs : f.Since with
  | none => exact absurd hfs hs
  | some since =>
  cases hfu : f.Until with
  | none => exact absurd hfu hu
  | some untilTime =>
  obtain ⟨hsp, hup⟩ := time_parts_of_set f since untilTime hfs hfu
  have hs1 : (sincePart f).1 = [] ↔ since.Before aLongTimeAgo = false := by
    rw [hsp]; cases since.Before aLongTimeAgo <;> simp
  have hu1 : (untilPart f).1 = [] ↔ untilTime.Before aLongTimeAgo = false := by
    rw [hup]; cases untilTime.Before aLongTimeAgo <;> simp
  have hiff : conditions = [] ↔
      (f.IDs = none ∧ f.Authors = none ∧ f.Kinds = none ∧ flattenTags f.Tags = [] ∧
        ∃ s u, some since = some s ∧ some untilTime = some u ∧
          s.Before aLongTimeAgo = false ∧ u.Before aLongTimeAgo = false) := by
    rw [hc]
    simp only [List.append_eq_nil, hnil.1, hnil.2.1, hnil.2.2.1, hnil.2.2.2, hs1, hu1,
      and_assoc, Option.some.injEq, exists_and_left, exists_eq_left']
  have hbig : conditions ≠ [] → 5 ≤ (wherePredicate conditions).length := by
    intro hne
    rw [wherePredicate, withFallback_of_ne_nil _ hne]
    cases hcs : conditions with
    | nil => exact absurd hcs hne
    | cons c rest =>
      have h1 := hlen c (by rw [hcs]; simp)
      have h2 := Join_length_ge c rest " AND "
      omega
  refine ⟨?_, hiff, ?_, ?_⟩
  · constructor
    · intro ht
      by_contra hne
      have h5 := hbig hne
      rw [ht] at h5
      exact absurd h5 (by decide)
    · intro he
      subst he
      rfl
  · intro he
    obtain ⟨-, -, -, ht, s, u, e1, e2, b1, b2⟩ := hiff.1 he
    simp only [Option.some.injEq] at e1 e2
    subst e1 e2
    rw [hp, hsp, hup, ht, b1, b2]
    rfl
  · intro he
    by_cases hne : conditions = []
    · subst hne
      exact absurd he (by decide)
    · have h5 := hbig hne
      rw [he] at h5
      exact absurd h5 (by decide)

/-- C17: at the zero filter ids, authors and kinds are nil, the tag criteria
contribute no value and neither since nor until is a time earlier than the
sentinel (both are nil), and no abort rule applies; yet `QueryEvents` does not
produce the predicate "true": it panics at line 119, for every store, and no
query text reaches the storage collaborator. The fallback is produced for the
same filter once `Since` and `Until` are set to times after the sentinel. -/
theorem C17_no_fallback_for_zero_filter :
    (zeroFilter.IDs = none ∧ zeroFilter.Authors = none ∧ zeroFilter.Kinds = none ∧
        flattenTags zeroFilter.Tags = [] ∧
        (∀ since, zeroFilter.Since = some since → since.Before aLongTimeAgo = false) ∧
        (∀ untilTime, zeroFilter.Until = some untilTime →
          untilTime.Before aLongTimeAgo = false)) ∧
      abortRule zeroFilter = false ∧
      buildConditions zeroFilter = Translation.panicked ∧
      (∀ b : BasicRelay, (QueryEvents b (some zeroFilter)).panicked = true ∧
        (QueryEvents b (some zeroFilter)).calls = []) ∧
      buildConditions laterFilter = Translation.query [] [] ∧
      (QueryEvents emptyStore (some laterFilter)).calls =
        [⟨"SELECT\n      id, pubkey, created_at, kind, tags, content, sig\n    FROM event WHERE true ORDER BY created_at LIMIT 100",
          []⟩] := by
  refine ⟨⟨rfl, rfl, rfl, rfl, ?_, ?_⟩, by decide, by decide, ?_, by decide, by decide⟩
  · intro since hs
    exact absurd hs (by simp [zeroFilter])
  · intro untilTime hu
    exact absurd hu (by simp [zeroFilter])
  · intro b
    rw [QueryEvents_of_panic b zeroFilter (by decide)]
    exact ⟨rfl, rfl⟩

theorem digitChar_isDigit : ∀ m, m < 10 → (Nat.digitChar m).isDigit = true := by
  decide

theorem toDigitsCore_isDigit (fuel : Nat) :
    ∀ (n : Nat) (ds : List Char), (∀ c ∈ ds, c.isDigit = true) →
      ∀ c ∈ Nat.toDigitsCore 10 fuel n ds, c.isDigit = true := by
  induction fuel with
  | zero => intro n ds hds c hc; exact hds c (by simpa [Nat.toDigitsCore] using hc)
  | succ fuel ih =>
    intro n ds hds c hc
    have hd : ∀ c ∈ (n % 10).digitChar :: ds, c.isDigit = true := by
      intro c hc
      rcases List.mem_cons.1 hc with rfl | hc
      · exact digitChar_isDigit _ (Nat.mod_lt _ (by decide))
      · exact hds c hc
    simp only [Nat.toDigitsCore] at hc
    split at hc
    · exact hd c hc
    · exact ih _ _ hd c hc

theorem Itoa_chars (k : Int) (c : Char) (hc : c ∈ (Itoa k).data) :
    c.isDigit = true ∨ c = '-' := by
  unfold Itoa at hc
  cases k with
  | ofNat n =>
    left
    exact toDigitsCore_isDigit _ _ _ (by simp) c hc
  | negSucc n =>
    simp only [String.data_append, List.mem_append] at hc
    rcases hc with hc | hc
    · right
      simpa using hc
    · left
      exact toDigitsCore_isDigit _ _ _ (by simp) c hc

theorem Itoa_eq_toString (k : Int) : Itoa k = toString k := by
  cases k <;> rfl

theorem Join_chars (l : List String) (sep : String) (c : Char)
    (hc : c ∈ (Join l sep).data) : (∃ s ∈ l, c ∈ s.data) ∨ c ∈ sep.data := by
  induction l with
  | nil => simp [Join] at hc
  | cons a rest ih =>
    cases rest with
    | nil => left; exact ⟨a, by simp, by simpa [Join] using hc⟩
    | cons b rest =>
      simp only [Join, String.data_append, List.mem_append] at hc
      rcases hc with (hc | hc) | hc
      · left; exact ⟨a, by simp, hc⟩
      · right; exact hc
      · rcases ih hc with ⟨s, hs, hcs⟩ | h
        · left; exact ⟨s, List.mem_cons_of_mem _ hs, hcs⟩
        · right; exact h

/-- C18: for a filter that is not aborted and whose kinds criterion is
present, the criterion has between 1 and 10 entries and the kinds condition,
which follows the conditions of ids and authors, is "kind IN (" followed by
the decimal rendering of each kind in input order, duplicates kept, separated
by commas, followed by ")"; between the parentheses there are only digits,
minus signs and commas. -/
theorem C18_kinds_condition_is_integer_list (f : Filter) (conditions : List String)
    (params : List Param) (kinds : List Int)
    (h : buildConditions f = Translation.query conditions params) (hk : f.Kinds = some kinds) :
    (1 ≤ kinds.length ∧ kinds.length ≤ 10) ∧
      (∃ rest, conditions = idsPart f ++ authorsPart f ++
        ("kind IN (" ++ Join (kinds.map Itoa) "," ++ ")") :: rest) ∧
      (∀ k : Int, Itoa k = toString k) ∧
      (∀ c ∈ (Join (kinds.map Itoa) ",").data,
        c.isDigit = true ∨ c = '-' ∨ c = ',') := by
  have hf := abortRule_false_of_query f _ _ h
  have hn := buildConditions_query_form f _ _ h
  refine ⟨((abortRule_eq_false_iff f).1 hf).2.2.1 kinds hk, ?_, Itoa_eq_toString, ?_⟩
  · rw [hn.1]
    simp only [kindsPart, hk, List.append_assoc, List.singleton_append]
    exact ⟨_, rfl⟩
  · intro c hc
    rcases Join_chars _ _ c hc with ⟨s, hs, hcs⟩ | hsep
    · simp only [List.mem_map] at hs
      obtain ⟨k, -, rfl⟩ := hs
      rcases Itoa_chars k c hcs with h1 | h1
      · exact Or.inl h1
      · exact Or.inr (Or.inl h1)
    · right; right
      simpa using hsep

/-- C18, at a filter with the kinds 7, -3, 7. -/
theorem C18_kinds_condition_is_integer_list_witness :
    buildConditions threeKindsFilter = Translation.query ["kind IN (7,-3,7)"] [] ∧
      ∃ rest, ["kind IN (7,-3,7)"] = idsPart threeKindsFilter ++ authorsPart threeKindsFilter ++
        ("kind IN (" ++ Join ([7, -3, 7].map Itoa) "," ++ ")") :: rest :=
  ⟨by decide,
    (C18_kinds_condition_is_integer_list threeKindsFilter ["kind IN (7,-3,7)"] [] [7, -3, 7]
      (by decide) rfl).2.1⟩

theorem placeholders_append (a b : String) :
    placeholders (a ++ b) = placeholders a + placeholders b := by
  simp [placeholders, String.data_append, List.count_append]

theorem placeholders_eq_zero_of_not_mem (s : String) (h : '?' ∉ s.data) :
    placeholders s = 0 := by
  unfold placeholders
  exact List.count_eq_zero.2 h

theorem placeholders_Join (l : List String) (sep : String) (hsep : placeholders sep = 0) :
    placeholders (Join l sep) = (l.map placeholders).sum := by
  induction l with
  | nil => rfl
  | cons a rest ih =>
    cases rest with
    | nil => simp [Join]
    | cons b rest =>
      simp only [Join, placeholders_append, hsep, ih, List.map_cons, List.sum_cons]
      omega

theorem sum_map_zero (l : List String) (h : ∀ s ∈ l, placeholders s = 0) :
    (l.map placeholders).sum = 0 := by
  induction l with
  | nil => rfl
  | cons a rest ih =>
    simp only [List.map_cons, List.sum_cons, h a (by simp),
      ih (fun s hs => h s (List.mem_cons_of_mem _ hs))]

theorem hexDigit_ne_question (n : Nat) : hexDigit n ≠ '?' := by
  intro h
  have h2 := congrArg Char.toNat h
  have h3 : ('?' : Char).toNat = 63 := rfl
  rw [h3] at h2
  unfold hexDigit at h2
  split at h2
  · rcases toNat_ofNat_or (48 + n) with h4 | h4 <;> omega
  · rcases toNat_ofNat_or (87 + n) with h4 | h4 <;> omega

theorem placeholders_quoteHex (s : String) : placeholders (quoteHex s) = 0 := by
  apply placeholders_eq_zero_of_not_mem
  unfold quoteHex hexEncode
  simp only [String.data_append, List.mem_append, List.mem_flatMap, List.mem_cons,
    List.mem_singleton, List.not_mem_nil, or_false]
  rintro ((h | ⟨b, -, h | h⟩) | h)
  · revert h; decide
  · exact hexDigit_ne_question _ h.symm
  · exact hexDigit_ne_question _ h.symm
  · revert h; decide

theorem placeholders_Itoa (k : Int) : placeholders (Itoa k) = 0 := by
  apply placeholders_eq_zero_of_not_mem
  intro h
  rcases Itoa_chars k _ h with h1 | h1
  · revert h1; decide
  · revert h1; decide

theorem placeholders_hex_list (xs : List String) (x : String) :
    placeholders (x ++ Join (quoteValid xs) "," ++ ")") = placeholders x := by
  rw [placeholders_append, placeholders_append, placeholders_Join _ _ (by decide),
    sum_map_zero]
  · have : placeholders ")" = 0 := by decide
    omega
  · intro s hs
    rw [quoteValid_eq_filter_map] at hs
    simp only [List.mem_map] at hs
    obtain ⟨y, -, rfl⟩ := hs
    exact placeholders_quoteHex y

theorem placeholders_criteria (f : Filter) :
    ∀ c ∈ idsPart f ++ authorsPart f ++ kindsPart f, placeholders c = 0 := by
  intro c hc
  simp only [List.mem_append] at hc
  rcases hc with (hc | hc) | hc
  · unfold idsPart at hc
    split at hc
    · simp at hc
    · simp only [List.mem_singleton] at hc
      subst hc
      rw [placeholders_hex_list]; decide
  · unfold authorsPart at hc
    split at hc
    · simp at hc
    · simp only [List.mem_singleton] at hc
      subst hc
      rw [placeholders_hex_list]; decide
  · unfold kindsPart at hc
    split at hc
    · simp at hc
    · simp only [List.mem_singleton] at hc
      subst hc
      rw [placeholders_append, placeholders_append, placeholders_Join _ _ (by decide),
        sum_map_zero]
      · decide
      · intro s hs
        simp only [List.mem_map] at hs
        obtain ⟨k, -, rfl⟩ := hs
        exact placeholders_Itoa k

theorem sum_map_placeholders_question (l : List String) :
    ((l.map fun _ => "?").map placeholders).sum = l.length := by
  induction l with
  | nil => rfl
  | cons a rest ih =>
    simp only [List.map_cons, List.sum_cons, ih, List.length_cons]
    have : placeholders "?" = 1 := by decide
    omega

theorem placeholders_tagPart (f : Filter) :
    ((tagPart f).map placeholders).sum = (flattenTags f.Tags).length := by
  unfold tagPart
  split
  · simp only [List.map_cons, List.map_nil, List.sum_cons, List.sum_nil, placeholders_append,
      placeholders_Join _ _ (show placeholders "," = 0 by decide), sum_map_placeholders_question]
    have h1 : placeholders "tagvalues && ARRAY[" = 0 := by decide
    have h2 : placeholders "]" = 0 := by decide
    omega
  · rename_i h
    simp only [List.map_nil, List.sum_nil]
    omega

theorem placeholders_time (f : Filter) :
    ((sincePart f).1.map placeholders).sum = (sincePart f).2.length ∧
      ((untilPart f).1.map placeholders).sum = (untilPart f).2.length := by
  have h1 : placeholders "created_at > ?" = 1 := by decide
  have h2 : placeholders "created_at < ?" = 1 := by decide
  unfold sincePart untilPart
  constructor
  · split
    · rfl
    · split
      · simp [h1]
      · rfl
  · split
    · rfl
    · split
      · simp [h2]
      · rfl

theorem placeholders_wherePredicate (conditions : List String) :
    placeholders (wherePredicate conditions) = (conditions.map placeholders).sum := by
  unfold wherePredicate
  by_cases h : conditions = []
  · subst h; decide
  · rw [withFallback_of_ne_nil _ h, placeholders_Join _ _ (by decide)]

/-- C19: for a filter that reaches storage, so that since and until are both
set, the number of "?" in the query text, before the placeholder rewriting, is
the length of the parameter list, which is the number of flattened tag values
plus one if the since bound is emitted plus one if the until bound is emitted;
the conditions of ids, authors and kinds contain no "?". -/
theorem C19_placeholders_match_parameters (b : BasicRelay) (f : Filter)
    (conditions : List String) (params : List Param)
    (h : buildConditions f = Translation.query conditions params) :
    placeholders (queryText conditions) = params.length ∧
      (∃ since untilTime, f.Since = some since ∧ f.Until = some untilTime ∧
        params.length = (flattenTags f.Tags).length +
          (if since.Before aLongTimeAgo = true then 1 else 0) +
          (if untilTime.Before aLongTimeAgo = true then 1 else 0)) ∧
      (∀ c ∈ idsPart f ++ authorsPart f ++ kindsPart f, placeholders c = 0) ∧
      (QueryEvents b (some f)).calls = [⟨b.DB.Rebind (queryText conditions), params⟩] := by
  have hn := buildConditions_query_form f _ _ h
  obtain ⟨hc, hp⟩ := hn
  have hcrit := sum_map_zero _ (placeholders_criteria f)
  have htime := placeholders_time f
  have hplen : params.length = (flattenTags f.Tags).length + (sincePart f).2.length +
      (untilPart f).2.length := by
    rw [hp]; simp only [List.length_append, List.length_map]
  have hset : ∃ since untilTime, f.Since = some since ∧ f.Until = some untilTime ∧
      params.length = (flattenTags f.Tags).length +
        (if since.Before aLongTimeAgo = true then 1 else 0) +
        (if untilTime.Before aLongTimeAgo = true then 1 else 0) := by
    obtain ⟨-, hs, hu⟩ := buildConditions_query_inv f _ _ h
    cases hfs : f.Since with
    | none => exact absurd hfs hs
    | some since =>
      cases hfu : f.Until with
      | none => exact absurd hfu hu
      | some untilTime =>
        obtain ⟨hsp, hup⟩ := time_parts_of_set f since untilTime hfs hfu
        refine ⟨since, untilTime, rfl, rfl, ?_⟩
        rw [hplen, hsp, hup]
        by_cases h1 : since.Before aLongTimeAgo = true <;>
          by_cases h2 : untilTime.Before aLongTimeAgo = true <;>
          simp [h1, h2]
  refine ⟨?_, hset, placeholders_criteria f, ?_⟩
  · unfold queryText
    rw [placeholders_append, placeholders_append, placeholders_wherePredicate, hc, hplen]
    simp only [List.map_append, List.sum_append] at hcrit ⊢
    rw [placeholders_tagPart, htime.1, htime.2]
    have h1 : placeholders
        "SELECT\n      id, pubkey, created_at, kind, tags, content, sig\n    FROM event WHERE " =
        0 := by decide
    have h2 : placeholders " ORDER BY created_at LIMIT 100" = 0 := by decide
    omega
  · simp only [QueryEvents, h, execute_calls]

/-- C19, at the filter with every criterion present. -/
theorem C19_placeholders_match_parameters_witness :
    placeholders (queryText
        ["id IN (\x2700112233445566778899aabbccddeeff00112233445566778899aabbccddeeff\x27)",
          "pubkey IN (\x27ffeeddccbbaa99887766554433221100ffeeddccbbaa99887766554433221100\x27)",
          "kind IN (1,7)", "tagvalues && ARRAY[?]", "created_at > ?", "created_at < ?"]) =
      [Param.str "abc", Param.int 1600000000, Param.int 1630000000].length :=
  (C19_placeholders_match_parameters emptyStore fullFilter
    ["id IN (\x2700112233445566778899aabbccddeeff00112233445566778899aabbccddeeff\x27)",
      "pubkey IN (\x27ffeeddccbbaa99887766554433221100ffeeddccbbaa99887766554433221100\x27)",
      "kind IN (1,7)", "tagvalues && ARRAY[?]", "created_at > ?", "created_at < ?"]
    [Param.str "abc", Param.int 1600000000, Param.int 1630000000] (by decide)).1

end Khatru
